import Mathlib

/-! # torus-node: PVSS verification (package `pvss`) and the JSON-RPC handlers (package `dkgnode`)

A shallow embedding of `src/pvss/gennaro2006.go` and `src/dkgnode/jrpc_handlers.go`,
followed by the properties established about them.

Conventions of the embedding

* Go slices are `List`s; an index expression that is out of range, a nil dereference and a
  failed type assertion are run-time panics and are modelled by `none` / `Outcome.panic`.
* `big.Int` scalars (share values, coefficients, node indices) are natural numbers, as the data
  model describes them (integers reduced into `[0, order)`); `Bytes()` of such a number is the
  number itself read as a big-endian scalar.
* Go `int`/`int64` arithmetic that can overflow is written with an explicit wrap-around.
-/

/-! ## Package `pvss` -/

namespace pvss

/-- The elliptic-curve library the package is linked against (`secp256k1.Curve`, `secp256k1.H`,
`secp256k1.GeneratorOrder`, `common.Point`). It is not part of the repository and is taken as a
parameter: `Pt` is the type of `common.Point` values, `P + Q` is `Curve.Add`, `k • P` is
`Curve.ScalarMult(P, k.Bytes())`, `k • G` is `Curve.ScalarBaseMult(k.Bytes())`, and `0` is
`common.Point{X: 0, Y: 0}`, the value the library uses for the point at infinity. The library
is taken as the specification treats it: its operations always succeed and compute in the
group, for every scalar. The remaining fields are the facts about the secp256k1 group that the
library is trusted for (prime order with cofactor 1, and no point of the curve with `X = 0`). -/
class CurveLib (Pt : Type) extends AddCommGroup Pt where
  /-- The base point of `ScalarBaseMult`. -/
  G : Pt
  /-- The second generator `secp256k1.H`. -/
  H : Pt
  /-- The constant `secp256k1.GeneratorOrder`. -/
  GeneratorOrder : Nat
  /-- The `X` field of a `common.Point`. -/
  X : Pt → Int
  /-- The group order is a prime number. -/
  GeneratorOrder_prime : Nat.Prime GeneratorOrder
  /-- The group order is odd. -/
  GeneratorOrder_odd : GeneratorOrder % 2 = 1
  /-- The base point has order exactly `GeneratorOrder`. -/
  nsmul_G_eq_zero_iff : ∀ k : Nat, k • G = 0 ↔ GeneratorOrder ∣ k
  /-- The second generator has order exactly `GeneratorOrder`. -/
  nsmul_H_eq_zero_iff : ∀ k : Nat, k • H = 0 ↔ GeneratorOrder ∣ k
  /-- Two points share their X-coordinate exactly when they are equal or opposite. -/
  X_eq_iff : ∀ P Q : Pt, X P = X Q ↔ P = Q ∨ P = -Q

/-- The type `common.PrimaryShare`. -/
structure PrimaryShare where
  Index : Nat
  Value : Nat
deriving DecidableEq

/-- The type `common.PrimaryPolynomial`. -/
structure PrimaryPolynomial where
  Coeff : List Nat
  Threshold : Int
deriving DecidableEq

/-- The type `common.Node`; only the index is used by this package. -/
structure Node where
  Index : Nat
deriving DecidableEq

/-- The value `make([]common.Point, n)` of Go: a run-time panic for a negative length, otherwise
`n` zero-valued points. -/
def makePoints {Pt : Type} [CurveLib Pt] (n : Int) : Option (List Pt) :=
  if n < 0 then none else some (List.replicate n.toNat 0)

/-- Modelled from the spec: `generateRandomZeroPolynomial` (its source file is not under `src/`).
Coefficient 0 is `secret`, the remaining `threshold - 1` coefficients are fresh random draws; a
threshold that is not positive is a precondition violation. The randomness is explicit:
`rand k` is the value of the `k`-th call of `RandomBigInt`, `ctr` the number of calls made so
far; the new count is returned with the polynomial. -/
def generateRandomZeroPolynomial (rand : Nat → Nat) (ctr : Nat) (secret : Nat) (threshold : Int) :
    Option (PrimaryPolynomial × Nat) :=
  if threshold ≤ 0 then none
  else
    some (⟨secret :: (List.range (threshold.toNat - 1)).map (fun i => rand (ctr + i)), threshold⟩,
      ctr + (threshold.toNat - 1))

/-- The sum of `coeffs[j] * index ^ (i + j)` over the positions `j` of `coeffs`. -/
def polySum (index : Nat) : List Nat → Nat → Nat
  | [], _ => 0
  | a :: as, i => a * index ^ i + polySum index as (i + 1)

/-- Modelled from the spec: `evaluate(polynomial, index)`, the sum of
`coefficients[i] * index^i` modulo the group order. -/
def evaluate (Pt : Type) [CurveLib Pt] (polynomial : PrimaryPolynomial) (index : Nat) : Nat :=
  polySum index polynomial.Coeff 0 % CurveLib.GeneratorOrder Pt

/-- Modelled from the spec: `getShares` (its source file is not under `src/`): one share per
node, the polynomial evaluated at the node's index. -/
def getShares (Pt : Type) [CurveLib Pt] (polynomial : PrimaryPolynomial) (nodes : List Node) :
    List PrimaryShare :=
  nodes.map (fun node => ⟨node.Index, evaluate Pt polynomial node.Index⟩)

/-- Modelled from the spec: `getCommit` (its source file is not under `src/`):
`commits[i] = G^{coefficients[i]}`. -/
def getCommit {Pt : Type} [CurveLib Pt] (polynomial : PrimaryPolynomial) : List Pt :=
  polynomial.Coeff.map (fun a => a • (CurveLib.G : Pt))

/-- The function `getCommitH`: `commits` has `polynomial.Threshold` entries and entry `i` is
`H` scaled by `polynomial.Coeff[i]`; reading a coefficient that does not exist panics. -/
def getCommitH {Pt : Type} [CurveLib Pt] (polynomial : PrimaryPolynomial) : Option (List Pt) := do
  let commits ← (makePoints polynomial.Threshold : Option (List Pt))
  (List.range commits.length).foldlM
    (fun (commits : List Pt) i => do
      let c ← polynomial.Coeff[i]?
      some (commits.set i (c • (CurveLib.H : Pt))))
    commits

/-- The four slices returned by `CreateSharesGen`, and its error value. -/
structure SharesGen (Pt : Type) where
  shares : List PrimaryShare
  sharesPrime : List PrimaryShare
  pubPoly : List Pt
  Ci : List Pt
  err : Option String

/-- One pass of the loop `for i := range pubPoly` of `CreateSharesGen`:
`Ci[i] = Add(pubPoly[i], pubPolyPrime[i])`, with every index checked. -/
def CreateSharesGen.step {Pt : Type} [CurveLib Pt] (pubPoly pubPolyPrime : List Pt)
    (Ci : List Pt) (i : Nat) : Option (List Pt) := do
  let a ← pubPoly[i]?
  let b ← pubPolyPrime[i]?
  if i < Ci.length then some (Ci.set i (a + b)) else none

/-- The function `CreateSharesGen`. `rand` is the sequence of values `RandomBigInt` returns. -/
def CreateSharesGen (Pt : Type) [CurveLib Pt] (rand : Nat → Nat) (nodes : List Node)
    (secret : Nat) (threshold : Int) : Option (SharesGen Pt) := do
  let (polynomial, ctr) ← generateRandomZeroPolynomial rand 0 secret threshold
  let (polynomialPrime, _) ← generateRandomZeroPolynomial rand (ctr + 1) (rand ctr) threshold
  let shares := getShares Pt polynomial nodes
  let sharesPrime := getShares Pt polynomialPrime nodes
  let pubPoly : List Pt := getCommit polynomial
  let pubPolyPrime ← (getCommitH polynomialPrime : Option (List Pt))
  let Ci ← (makePoints threshold : Option (List Pt))
  let Ci ← (List.range pubPoly.length).foldlM (CreateSharesGen.step pubPoly pubPolyPrime) Ci
  some ⟨shares, sharesPrime, pubPoly, Ci, none⟩

/-- The coefficients of the main polynomial drawn by `CreateSharesGen`, as the call of
`generateRandomZeroPolynomial` at the counter 0 produces them. -/
def mainCoeff (rand : Nat → Nat) (secret : Nat) (threshold : Int) : List Nat :=
  secret :: (List.range (threshold.toNat - 1)).map (fun i => rand (0 + i))

/-- The coefficients of the blinding polynomial drawn by `CreateSharesGen`: its secret is the
draw that follows those of the main polynomial, its other coefficients the draws after it. -/
def blindCoeff (rand : Nat → Nat) (threshold : Int) : List Nat :=
  rand (0 + (threshold.toNat - 1))
    :: (List.range (threshold.toNat - 1)).map (fun i => rand (0 + (threshold.toNat - 1) + 1 + i))

/-- The loop `for i := range ci` of `VerifyPedersonCommitment`, started at position `i` with the
accumulator `rhs`: `jt = index^i mod GeneratorOrder`, `rhs = Add(rhs, ScalarMult(ci[i], jt))`. -/
def VerifyPedersonCommitment.rhs {Pt : Type} [CurveLib Pt] (index : Nat) :
    List Pt → Nat → Pt → Pt
  | [], _, rhs => rhs
  | c :: cs, i, rhs =>
    let jt := index ^ i % CurveLib.GeneratorOrder Pt
    let polyValue := jt • c
    VerifyPedersonCommitment.rhs index cs (i + 1) (rhs + polyValue)

/-- The function `VerifyPedersonCommitment`. -/
def VerifyPedersonCommitment {Pt : Type} [CurveLib Pt] (share sharePrime : PrimaryShare)
    (ci : List Pt) (index : Nat) : Bool :=
  let gSik : Pt := share.Value • CurveLib.G
  let hSikPrime : Pt := sharePrime.Value • CurveLib.H
  let lhs := gSik + hSikPrime
  let rhs := VerifyPedersonCommitment.rhs index ci 0 (0 : Pt)
  if CurveLib.X lhs = CurveLib.X rhs then true else false

/-- The loop `for i := range pubPoly` of `VerifyShare`, started at position `i` with the
accumulator `rhs`. -/
def VerifyShare.rhs {Pt : Type} [CurveLib Pt] (index : Nat) : List Pt → Nat → Pt → Pt
  | [], _, rhs => rhs
  | c :: cs, i, rhs =>
    let jt := index ^ i % CurveLib.GeneratorOrder Pt
    let polyValue := jt • c
    VerifyShare.rhs index cs (i + 1) (rhs + polyValue)

/-- The function `VerifyShare`. -/
def VerifyShare {Pt : Type} [CurveLib Pt] (share : PrimaryShare) (pubPoly : List Pt)
    (index : Nat) : Bool :=
  let lhs : Pt := share.Value • CurveLib.G
  let rhs := VerifyShare.rhs index pubPoly 0 (0 : Pt)
  if CurveLib.X lhs = CurveLib.X rhs then true else false

/-- The share with bit `k` of its value flipped. -/
def flipBit (share : PrimaryShare) (k : Nat) : PrimaryShare :=
  { share with Value := share.Value ^^^ 2 ^ k }

/-- The loop `for i := range pubPoly` of `VerifyShareCommitment`, started at position `i` with
the accumulator `rhs`. -/
def VerifyShareCommitment.rhs {Pt : Type} [CurveLib Pt] (index : Nat) : List Pt → Nat → Pt → Pt
  | [], _, rhs => rhs
  | c :: cs, i, rhs =>
    let jt := index ^ i % CurveLib.GeneratorOrder Pt
    let polyValue := jt • c
    VerifyShareCommitment.rhs index cs (i + 1) (rhs + polyValue)

/-- The function `VerifyShareCommitment`. -/
def VerifyShareCommitment {Pt : Type} [CurveLib Pt] (shareCommitment : Pt) (pubPoly : List Pt)
    (index : Nat) : Bool :=
  let lhs := shareCommitment
  let rhs := VerifyShareCommitment.rhs index pubPoly 0 (0 : Pt)
  if CurveLib.X lhs = CurveLib.X rhs then true else false

/-- The right-hand side of the verification equation as the specification words it: the sum,
over the positions `i` of the commitment vector, of `commitment[i]` scaled by `index^i` modulo
the group order. -/
def commitmentSum {Pt : Type} [CurveLib Pt] (pubPoly : List Pt) (index : Nat) : Pt :=
  ((List.range pubPoly.length).map
    (fun i => (index ^ i % CurveLib.GeneratorOrder Pt) • pubPoly.getD i 0)).sum

/-! ### A small instance of the curve library

The curve `y² = x³ + 3` over the field with 7 elements has 13 points and is generated by
`(1, 2)`. A point is named by its discrete logarithm `k` (the point is `k • (1, 2)`), so the group
is `ZMod 13`; `smallX` lists the X-coordinates of `0 • G, 1 • G, …, 12 • G`, with `0` for the
point at infinity as in `common.Point{0, 0}`. -/

/-- The X-coordinates of the multiples of `(1, 2)` on `y² = x³ + 3` over the field of order 7. -/
def smallX (a : ZMod 13) : Int :=
  [0, 1, 6, 2, 4, 3, 5, 5, 3, 4, 2, 6, 1].getD a.val 0

/-- The curve library instantiated with the 13-point curve; `H` is `5 • G`. -/
instance smallCurve : CurveLib (ZMod 13) where
  G := 1
  H := 5
  GeneratorOrder := 13
  X := smallX
  GeneratorOrder_prime := by norm_num
  GeneratorOrder_odd := by decide
  nsmul_G_eq_zero_iff := by
    intro k
    rw [nsmul_eq_mul, mul_one]
    exact ZMod.natCast_zmod_eq_zero_iff_dvd k 13
  nsmul_H_eq_zero_iff := by
    intro k
    rw [nsmul_eq_mul]
    constructor
    · intro h
      have h5 : ((k * 5 : Nat) : ZMod 13) = 0 := by push_cast; exact h
      have hd : 13 ∣ k * 5 := (ZMod.natCast_zmod_eq_zero_iff_dvd (k * 5) 13).1 h5
      exact (Nat.Coprime.dvd_of_dvd_mul_right (by decide) hd)
    · intro h
      have hk : ((k : Nat) : ZMod 13) = 0 := (ZMod.natCast_zmod_eq_zero_iff_dvd k 13).2 h
      rw [hk, zero_mul]
  X_eq_iff := by decide

/-- The order of the secp256k1 group, the value of `secp256k1.GeneratorOrder`. -/
def secp256k1Order : Nat :=
  0xFFFFFFFFFFFFFFFFFFFFFFFFFFFFFFFEBAAEDCE6AF48A03BBFD25E8CD0364141

end pvss

/-! ## Package `dkgnode` -/

namespace dkgnode

/-- The type `jsonrpc.Error`; `Data` is absent in one of the errors the handlers build. -/
structure Error where
  Code : Int
  Message : String
  Data : Option String
deriving DecidableEq

/-- What a call of a handler does: it returns a result, returns a JSON-RPC error, or panics. -/
inductive Outcome (α : Type) where
  | result (res : α)
  | error (err : Error)
  | panic
deriving DecidableEq

/-! ### Go library functions used by the handlers -/

/-- Go `int64` wrap-around: the value in `[-2^63, 2^63)` congruent to `x` modulo `2^64`. -/
def wrapInt64 (x : Int) : Int := (x + 2 ^ 63) % 2 ^ 64 - 2 ^ 63

/-- The value of a decimal digit. -/
def digitVal (c : Char) : Option Nat :=
  if '0' ≤ c ∧ c ≤ '9' then some (c.toNat - '0'.toNat) else none

/-- The number written by a list of decimal digits, `none` when a character is not a digit. -/
def parseDigits : List Char → Nat → Option Nat
  | [], acc => some acc
  | c :: cs, acc =>
    match digitVal c with
    | some d => parseDigits cs (acc * 10 + d)
    | none => none

/-- Go `strconv.ParseInt(s, 10, 64)`: an optional sign followed by at least one decimal digit,
the value within the `int64` range; `none` stands for a non-nil error. -/
def ParseInt (s : String) : Option Int :=
  match s.data with
  | [] => none
  | '-' :: ds =>
    if ds = [] then none
    else (parseDigits ds 0).bind fun n => if n ≤ 2 ^ 63 then some (-(n : Int)) else none
  | '+' :: ds =>
    if ds = [] then none
    else (parseDigits ds 0).bind fun n => if n < 2 ^ 63 then some (n : Int) else none
  | ds => (parseDigits ds 0).bind fun n => if n < 2 ^ 63 then some (n : Int) else none

/-- Go `strconv.ParseUint(s, 10, 64)`: at least one decimal digit, the value below `2^64`. -/
def ParseUint (s : String) : Option Nat :=
  if s.data = [] then none
  else (parseDigits s.data 0).bind fun n => if n < 2 ^ 64 then some n else none

/-- Go `strconv.Itoa`. -/
def Itoa (n : Int) : String := toString n

/-- Go `big.Int.Text(16)`: the number in lower-case hexadecimal digits, after a minus sign when
it is negative. -/
def bigIntText16 (x : Int) : String :=
  if x < 0 then "-" ++ String.mk (Nat.toDigits 16 x.natAbs)
  else String.mk (Nat.toDigits 16 x.natAbs)

/-- The pieces of a list of characters between the occurrences of `sep`; `cur` is the piece
being read, in reverse. -/
def splitAux (sep : Char) : List Char → List Char → List (List Char)
  | [], cur => [cur.reverse]
  | c :: cs, cur =>
    if c = sep then cur.reverse :: splitAux sep cs [] else splitAux sep cs (c :: cur)

/-- Go `strings.Split(s, sep)` for a one-character separator. -/
def Split (s : String) (sep : Char) : List String :=
  (splitAux sep s.data []).map String.mk

/-- Go `time.Time` as far as `After` reads it: the seconds since January 1 of year 1 (an
`int64`) and the nanoseconds within the second. -/
structure Time where
  sec : Int
  nsec : Int
deriving DecidableEq

/-- The seconds from January 1 of year 1 to January 1, 1970 (`unixToInternal` of package
`time`). -/
def unixToInternal : Int := 62135596800

/-- Go `time.Unix(sec, 0)`. -/
def Time.Unix (sec : Int) : Time := ⟨wrapInt64 (sec + unixToInternal), 0⟩

/-- Go `t.After(u)`. -/
def Time.After (t u : Time) : Bool :=
  decide (t.sec > u.sec) || (decide (t.sec = u.sec) && decide (t.nsec > u.nsec))

/-! ### The replay caches (`github.com/patrickmn/go-cache`) -/

/-- An entry of a go-cache cache: the stored value and the instant, in nanoseconds of the
cache's clock, at which it expires (`0` for an entry that never expires). -/
structure Item where
  Object : Bool
  Expiration : Nat
deriving DecidableEq

/-- A cache: its entries by key. -/
abbrev Cache := String → Option Item

/-- Modelled from the spec: the expiring key→bool set created by `cache.New`; it starts empty. -/
def Cache.New : Cache := fun _ => none

/-- Modelled from the spec: `Get` of the expiring set at the clock reading `now`: an entry is
found when it is present and has not expired. -/
def Cache.Get (c : Cache) (now : Nat) (k : String) : Option Bool :=
  match c k with
  | none => none
  | some item => if 0 < item.Expiration ∧ now > item.Expiration then none else some item.Object

/-- Modelled from the spec: `Set` of the expiring set at the clock reading `now`, with the
time to live `d` in nanoseconds: the entry expires `d` after `now`. -/
def Cache.Set (c : Cache) (now : Nat) (k : String) (x : Bool) (d : Nat) : Cache :=
  fun k' => if k' = k then some ⟨x, if 0 < d then now + d else 0⟩ else c k'

/-- The map `CacheSuite.TokenCaches`: one cache per verifier identifier, `none` for nil. -/
abbrev TokenCaches := String → Option Cache

/-- Go `time.Minute`, in nanoseconds. -/
def Minute : Nat := 60000000000

/-! ### `CommitmentRequest` -/

/-- The type `CommitmentRequestParams`. -/
structure CommitmentRequestParams where
  MessagePrefix : String
  TokenCommitment : String
  TempPubX : String
  TempPubY : String
  Timestamp : String
  VerifierIdentifier : String
deriving DecidableEq

/-- The type `CommitmentRequestResultData`. -/
structure CommitmentRequestResultData where
  MessagePrefix : String
  TokenCommitment : String
  TempPubX : String
  TempPubY : String
  Timestamp : String
  VerifierIdentifier : String
  TimeSigned : String
deriving DecidableEq

/-- The type `CommitmentRequestResult`. -/
structure CommitmentRequestResult where
  Signature : String
  Data : String
  NodePubX : String
  NodePubY : String
deriving DecidableEq

/-- Modelled from the spec: `CommitmentRequestResultData.ToString` (its source file is not
under `src/`): the canonical transcript, the seven fields joined by `|`. -/
def CommitmentRequestResultData.ToString (c : CommitmentRequestResultData) : String :=
  c.MessagePrefix ++ "|" ++ c.TokenCommitment ++ "|" ++ c.TempPubX ++ "|" ++ c.TempPubY ++ "|"
    ++ c.Timestamp ++ "|" ++ c.VerifierIdentifier ++ "|" ++ c.TimeSigned

/-- Modelled from the spec: `CommitmentRequestResultData.FromString` (its source file is not
under `src/`): the inverse of `ToString`; a string that is not seven fields joined by `|`
leaves the record at its zero value. -/
def CommitmentRequestResultData.FromString (data : String) : CommitmentRequestResultData :=
  match Split data '|' with
  | [a, b, c, d, e, f, g] => ⟨a, b, c, d, e, f, g⟩
  | _ => ⟨"", "", "", "", "", "", ""⟩

/-- What `CommitmentRequestHandler.ServeJSONRPC` reads from its receiver and its environment
during one call. -/
structure CommitmentRequestHandler where
  /-- The outcome of `jsonrpc.Unmarshal(params, &p)`. -/
  Unmarshal : String → Except Error CommitmentRequestParams
  /-- The value of `h.TimeNow()`. -/
  TimeNow : Time
  /-- The clock reading of `tokenCache.Get`, in nanoseconds. -/
  cacheGetNow : Nat
  /-- The clock reading of `tokenCache.Set`, in nanoseconds. -/
  cacheSetNow : Nat
  /-- The value of `time.Now().Unix()` put into the signed record. -/
  signNow : Int
  /-- The method `CommitmentRequestResultData.ToString`. -/
  ToString : CommitmentRequestResultData → String
  /-- The composition `ECDSASigToHex(ECDSASign(·, NodePrivateKey))`. -/
  Sign : String → String
  /-- The value `NodePublicKey.X.Text(16)`. -/
  NodePubX : String
  /-- The value `NodePublicKey.Y.Text(16)`. -/
  NodePubY : String

/-- The method `CommitmentRequestHandler.ServeJSONRPC`: the outcome of the call and the replay
caches it leaves. -/
def CommitmentRequestHandler.ServeJSONRPC (h : CommitmentRequestHandler) (caches : TokenCaches)
    (params : String) : Outcome CommitmentRequestResult × TokenCaches :=
  match h.Unmarshal params with
  | .error err => (.error err, caches)
  | .ok p =>
    let timestamp := p.Timestamp
    let tokenCommitment := p.TokenCommitment
    let verifierIdentifier := p.VerifierIdentifier
    -- check if message prefix is correct
    if p.MessagePrefix ≠ "mug00" then
      (.error ⟨32603, "Internal error", some "Incorrect message prefix"⟩, caches)
    else
      -- check if timestamp has expired
      match ParseInt timestamp with
      | none => (.error ⟨32603, "Internal error", some "Could not parse timestamp"⟩, caches)
      | some sec =>
        if h.TimeNow.After (Time.Unix (wrapInt64 (sec + 60))) then
          (.error ⟨32603, "Internal error", some "Expired token (> 60 seconds)"⟩, caches)
        else
          -- check if tokenCommitment has been seen before for that verifierIdentifier
          let caches : TokenCaches :=
            if (caches verifierIdentifier).isNone then
              fun v => if v = verifierIdentifier then some Cache.New else caches v
            else caches
          let tokenCache : Cache := (caches verifierIdentifier).getD Cache.New
          match tokenCache.Get h.cacheGetNow tokenCommitment with
          | some _ => (.error ⟨32603, "Internal error", some "Duplicate token found"⟩, caches)
          | none =>
            let tokenCache := tokenCache.Set h.cacheSetNow tokenCommitment true (1 * Minute)
            let caches : TokenCaches :=
              fun v => if v = verifierIdentifier then some tokenCache else caches v
            -- sign data
            let commitmentRequestResultData : CommitmentRequestResultData :=
              ⟨p.MessagePrefix, p.TokenCommitment, p.TempPubX, p.TempPubY, p.Timestamp,
                p.VerifierIdentifier, Itoa h.signNow⟩
            let sig := h.Sign (h.ToString commitmentRequestResultData)
            (.result ⟨sig, h.ToString commitmentRequestResultData, h.NodePubX, h.NodePubY⟩,
              caches)

/-! ### `ShareRequest` -/

/-- The type `NodeSignature`. -/
structure NodeSignature where
  Signature : String
  Data : String
  NodePubKeyX : String
  NodePubKeyY : String
deriving DecidableEq

/-- The type `ValidatedNodeSignature`: a signature and the index of the node that signed. -/
structure ValidatedNodeSignature extends NodeSignature where
  NodeIndex : Int
deriving DecidableEq

/-- The type `ShareRequestParams`. -/
structure ShareRequestParams where
  ID : String
  Token : String
  NodeSignatures : List NodeSignature
deriving DecidableEq

/-- The type `ShareRequestResult`. -/
structure ShareRequestResult where
  Index : Int
  HexShare : String
deriving DecidableEq

/-- The type `SiStore`. -/
structure SiStore where
  Index : Int
  Value : Int
deriving DecidableEq

/-- A verifier returned by `DefaultVerifier.Lookup`. -/
structure Verifier where
  CleanToken : String → String

/-- What `ShareRequestHandler.ServeJSONRPC` reads from its receiver and its environment during
one call. -/
structure ShareRequestHandler where
  /-- The value `h.suite.Config.Threshold`. -/
  Threshold : Int
  /-- The outcome of `jsonrpc.Unmarshal(params, &p)`. -/
  Unmarshal : String → Except Error ShareRequestParams
  /-- The pair `DefaultVerifier.Verify(params)` returns: the verdict and the error, `none` for
  nil. -/
  Verify : String → Bool × Option String
  /-- The outcome of `NodeValidation`: the index of the signing node, or the error. -/
  NodeValidation : NodeSignature → Except String Int
  /-- The method `CommitmentRequestResultData.FromString`, applied to a zero-valued record. -/
  FromString : String → CommitmentRequestResultData
  /-- The order in which `range commonDataMap` visits the entries of the map. -/
  rangeOrder : List (String × Int) → List (String × Int)
  /-- The outcome of `DefaultVerifier.Lookup`. -/
  Lookup : String → Except String Verifier
  /-- The composition `hex.EncodeToString(secp256k1.Keccak256([]byte(·)))`. -/
  Keccak256Hex : String → String
  /-- The value of `h.TimeNow()`. -/
  TimeNow : Time
  /-- The outcome of `CacheInstance.Get("Si_MAPPING")`: `none` when not found, `some none` for a
  value that is not a `map[int]SiStore`, otherwise the map (a missing key reads as the zero
  `SiStore`). -/
  SiMapping : Option (Option (Int → SiStore))
  /-- The outcome of `BftRPC.ABCIQuery`: the response value, or the error. -/
  ABCIQuery : String → String → Except String String
  /-- The method `big.Int.Text(16)`. -/
  Text16 : Int → String

/-- The loop of lines 103–113: the signatures that pass `NodeValidation`, in order. -/
def ShareRequestHandler.validSignatures (h : ShareRequestHandler) :
    List NodeSignature → List ValidatedNodeSignature
  | [] => []
  | sig :: rest =>
    match h.NodeValidation sig with
    | .ok index => ⟨sig, index⟩ :: h.validSignatures rest
    | .error _ => h.validSignatures rest

/-- The transcript `stringData` of a validated signature (lines 122–127 and 139–144). -/
def ShareRequestHandler.stringData (h : ShareRequestHandler) (sig : ValidatedNodeSignature) :
    String :=
  let commitmentRequestResultData := h.FromString sig.Data
  commitmentRequestResultData.MessagePrefix ++ "|" ++
    commitmentRequestResultData.TokenCommitment ++ "|" ++
    commitmentRequestResultData.Timestamp ++ "|" ++
    commitmentRequestResultData.VerifierIdentifier

/-- The statement `m[k]++` on a `map[string]int` kept as a list of entries with distinct
keys. -/
def mapIncr : List (String × Int) → String → List (String × Int)
  | [], k => [(k, 1)]
  | (k', v) :: rest, k => if k' = k then (k', v + 1) :: rest else (k', v) :: mapIncr rest k

/-- The loop of lines 120–129: the map `commonDataMap`, from the map built so far. -/
def ShareRequestHandler.commonDataMap (h : ShareRequestHandler) :
    List ValidatedNodeSignature → List (String × Int) → List (String × Int)
  | [], m => m
  | sig :: rest, m => h.commonDataMap rest (mapIncr m (h.stringData sig))

/-- The loop of lines 132–136 over the entries in the order visited: `commonDataString` is
assigned when `v > commonDataCount`; `commonDataCount` is not assigned. -/
def selectCommon : List (String × Int) → String → Int → String × Int
  | [], commonDataString, commonDataCount => (commonDataString, commonDataCount)
  | (k, v) :: rest, commonDataString, commonDataCount =>
    if v > commonDataCount then selectCommon rest k commonDataCount
    else selectCommon rest commonDataString commonDataCount

/-- The value of `commonDataString` after line 136. -/
def ShareRequestHandler.commonDataString (h : ShareRequestHandler)
    (validSignatures : List ValidatedNodeSignature) : String :=
  (selectCommon (h.rangeOrder (h.commonDataMap validSignatures [])) "" 0).1

/-- The loop of lines 137–148: the validated signatures on the transcript
`commonDataString`. -/
def ShareRequestHandler.validCommonSignatures (h : ShareRequestHandler)
    (validSignatures : List ValidatedNodeSignature) (commonDataString : String) :
    List ValidatedNodeSignature :=
  validSignatures.filter (fun sig => h.stringData sig = commonDataString)

/-- Lines 180–212 of `ShareRequestHandler.ServeJSONRPC`: the identity verification and the
lookup of the share. -/
def ShareRequestHandler.verifyAndLookup (h : ShareRequestHandler) (params : String)
    (p : ShareRequestParams) : Outcome ShareRequestResult :=
  -- Here we verify the identity of the user
  match h.Verify params with
  | (_, some err) => .error ⟨32602, "Invalid params", some ("oauth is invalid, err: " ++ err)⟩
  | (false, none) =>
    -- `err.Error()` is called on the nil error
    .panic
  | (true, none) =>
    match h.SiMapping with
    | none =>
      .error ⟨32603, "Internal error", some "Could not get si mapping here, not found"⟩
    | some none => .panic
    | some (some siMapping) =>
      match h.ABCIQuery "GetEmailIndex" p.ID with
      | .error err =>
        .error ⟨32603, "Internal error", some ("Could not get email index here: " ++ err)⟩
      | .ok value =>
        match ParseUint value with
        | none =>
          -- the text of the parse error, appended in the source, is left out
          .error ⟨32603, "Internal error", some "Cannot parse uint for user index here: "⟩
        | some userIndex =>
          let tmpInt := (siMapping (wrapInt64 userIndex)).Value
          .result ⟨(siMapping (wrapInt64 userIndex)).Index, h.Text16 tmpInt⟩

/-- The method `ShareRequestHandler.ServeJSONRPC`. -/
def ShareRequestHandler.ServeJSONRPC (h : ShareRequestHandler) (params : String) :
    Outcome ShareRequestResult :=
  match h.Unmarshal params with
  | .error err => .error err
  | .ok p =>
    -- verify token validity against verifier (the returned values are dropped)
    let _ := h.Verify params
    -- Validate signatures
    let validSignatures := h.validSignatures p.NodeSignatures
    -- Check if we have threshold number of signatures
    if (validSignatures.length : Int) < h.Threshold then
      .error ⟨32602, "Internal error", some ("Not enough valid signatures. Only "
        ++ Itoa validSignatures.length ++ "valid signatures found.")⟩
    else
      -- Find common data string, and filter valid signatures on the wrong data
      let commonDataString := h.commonDataString validSignatures
      let validCommonSignatures := h.validCommonSignatures validSignatures commonDataString
      if (validCommonSignatures.length : Int) < h.Threshold then
        .error ⟨32602, "Internal error", some ("Not enough valid signatures on the same data, "
          ++ Itoa validCommonSignatures.length ++ " valid signatures.")⟩
      else
        let commonData := Split commonDataString '|'
        match commonData[1]?, commonData[2]?, commonData[3]? with
        | some commonTokenCommitment, some commonTimestamp, some commonVerifierIdentifier =>
          -- Lookup verifier
          match h.Lookup commonVerifierIdentifier with
          | .error err => .error ⟨32603, "Internal error", some err⟩
          | .ok verifier =>
            -- verify that hash of token = tokenCommitment
            let cleanedToken := verifier.CleanToken p.Token
            if h.Keccak256Hex cleanedToken ≠ commonTokenCommitment then
              .error ⟨32602, "Internal error",
                some "Token commitment and token are not compatible"⟩
            else
              -- verify token timestamp
              match ParseInt commonTimestamp with
              | none => .error ⟨32603, "Internal error", some "Could not parse timestamp"⟩
              | some sec =>
                if h.TimeNow.After (Time.Unix (wrapInt64 (sec + 60))) then
                  .error ⟨32603, "Internal error", some "Expired token (> 60 seconds)"⟩
                else h.verifyAndLookup params p
        | _, _, _ => .panic

/-! ### `SecretAssign` -/

/-- The type `SecretAssignParams`. -/
structure SecretAssignParams where
  Email : String
deriving DecidableEq

/-- The type `SecretAssignResult`. -/
structure SecretAssignResult where
  ShareIndex : Int
  PubShareX : String
  PubShareY : String
  Address : String
deriving DecidableEq

/-- The two coordinates of the `common.Point` that `retrieveUserPubKey` returns. -/
structure PublicKey where
  X : Int
  Y : Int
deriving DecidableEq

/-- The assignment state `h.suite.ABCIApp.state`. Its type is declared outside `src/`; the
indices and counters are Go `uint` values, as the index variables of the handler are
(`var assignedIndex uint`): natural numbers below `2^64`, on which a sum wraps around at
`2^64`. -/
structure State where
  EmailMapping : String → Option Nat
  LastCreatedIndex : Nat
  LastUnassignedIndex : Nat
  Epoch : Nat

/-- The subscription channel as the loop `for e := range responseCh` sees it: the events
that arrive, in order, and whether the channel is closed after them (on a channel that stays
open the loop waits for ever once the events are consumed). -/
structure Channel where
  events : List String
  closed : Bool
deriving DecidableEq

/-- What `SecretAssignHandler.ServeJSONRPC` reads from its receiver and its environment during
one call. -/
structure SecretAssignHandler where
  /-- The outcome of `jsonrpc.Unmarshal(params, &p)`. -/
  Unmarshal : String → Except Error SecretAssignParams
  /-- The assignment state. -/
  state : State
  /-- The function `retrieveUserPubKey(h.suite, ·)`: the public key of an index, or the error. -/
  retrieveUserPubKey : Int → Except String PublicKey
  /-- The function `common.PointToEthAddress`: the address `addr.String()`, or the error. -/
  PointToEthAddress : PublicKey → Except String String
  /-- The outcome of `BftRPC.Broadcast` on the assignment transaction with the given email and
  epoch: the text `hash.String()`, or the error. -/
  Broadcast : String → Nat → Except String String
  /-- The channel `RegisterQuery` returns (its error is only logged; a nil channel is a channel
  on which nothing arrives and that is never closed). -/
  RegisterQuery : String → Nat → Channel
  /-- The text `gjson.GetBytes(e, "query").String()` of an event. -/
  eventQuery : String → String
  /-- The outcome of `BftRPC.ABCIQuery`: the response value, or the error. -/
  ABCIQuery : String → String → Except String String
  /-- The outcome of `CacheInstance.Get("Secret_MAPPING")`: `none` when not found, `some none`
  for a value that is not a `map[int]SecretStore`, otherwise the map, read as whether the
  entry of an index has a secret. -/
  SecretMapping : Option (Option (Int → Bool))
  /-- The method `big.Int.Text(16)`. -/
  Text16 : Int → String

/-- What one call of `SecretAssign` does: `outcome` is what the call returns, `none` when it
never returns; `broadcasts` lists the assignment transactions (email and epoch) passed to
`Broadcast`. -/
structure SecretAssignRun where
  outcome : Option (Outcome SecretAssignResult)
  broadcasts : List (String × Nat)
deriving DecidableEq

/-- How the loop `for e := range responseCh` ends on the events that arrive: with the index
returned by the re-query, with an error returned from inside the loop, or with the events
used up and no matching one seen. -/
inductive WaitResult where
  | assigned (assignedIndex : Nat)
  | failed (err : Error)
  | drained
deriving DecidableEq

/-- The loop of lines 287–307 over the events that arrive. -/
def SecretAssignHandler.wait (h : SecretAssignHandler) (email queryString : String) :
    List String → WaitResult
  | [] => .drained
  | e :: es =>
    if h.eventQuery e ≠ queryString then h.wait email queryString es
    else
      match h.ABCIQuery "GetEmailIndex" email with
      | .error err =>
        .failed ⟨32603, "Internal error",
          some ("Failed to check if email exists after assignment: " ++ err)⟩
      | .ok value =>
        if value = "" then
          .failed ⟨32603, "Internal error",
            some "Failed to find email after it has been assigned"⟩
        else
          match ParseUint value with
          | none =>
            -- the printed response and the text of the parse error are left out
            .failed ⟨32603, "Internal error",
              some "Failed to parse uint for returned assignment index: "⟩
          | some assignedIndex64 => .assigned assignedIndex64

/-- Lines 309–343 of `SecretAssignHandler.ServeJSONRPC`, with the value of `assignedIndex`
after the loop. -/
def SecretAssignHandler.respond (h : SecretAssignHandler) (params : String)
    (assignedIndex : Nat) : Outcome SecretAssignResult :=
  match h.SecretMapping with
  | none =>
    .error ⟨32603, "Internal error", some "Could not get sec mapping here after ws reply"⟩
  | some none => .panic
  | some (some _) =>
    match h.Unmarshal params with
    | .error err => .error err
    | .ok _ =>
      -- a missing secret for the index is only logged
      -- create users publicKey
      match h.retrieveUserPubKey (wrapInt64 assignedIndex) with
      | .error err =>
        .error ⟨32603, "Internal error",
          some ("Could not retrieve user public key through query, please try again, err "
            ++ err)⟩
      | .ok finalUserPubKey =>
        -- form address eth
        match h.PointToEthAddress finalUserPubKey with
        | .error _ => .error ⟨32603, "Internal error", none⟩
        | .ok addr =>
          .result ⟨wrapInt64 assignedIndex, h.Text16 finalUserPubKey.X,
            h.Text16 finalUserPubKey.Y, addr⟩

/-- The method `SecretAssignHandler.ServeJSONRPC`. -/
def SecretAssignHandler.ServeJSONRPC (h : SecretAssignHandler) (params : String) :
    SecretAssignRun :=
  match h.Unmarshal params with
  | .error err => ⟨some (.error err), []⟩
  | .ok p =>
    -- no email provided
    if p.Email = "" then ⟨some (.error ⟨32602, "Input error", some "Email is empty"⟩), []⟩
    else
      -- try to get get email index
      match h.state.EmailMapping p.Email with
      | some previouslyAssignedIndex =>
        -- already assigned: create users publicKey
        match h.retrieveUserPubKey (wrapInt64 previouslyAssignedIndex) with
        | .error err =>
          ⟨some (.error ⟨32603, "Internal error",
            some ("could not retrieve secret from previously assigned index, "
              ++ "please try again err, " ++ err)⟩), []⟩
        | .ok finalUserPubKey =>
          -- form address eth
          match h.PointToEthAddress finalUserPubKey with
          | .error _ => ⟨some (.error ⟨32603, "Internal error", none⟩), []⟩
          | .ok addr =>
            ⟨some (.result ⟨wrapInt64 previouslyAssignedIndex, h.Text16 finalUserPubKey.X,
              h.Text16 finalUserPubKey.Y, addr⟩), []⟩
      | none =>
        -- if all indexes have been assigned, bounce request
        if h.state.LastCreatedIndex < (h.state.LastUnassignedIndex + 20) % 2 ^ 64 then
          ⟨some (.error ⟨32604,
            "System is under heavy load for assignments, please try again later", none⟩), []⟩
        else
          -- new assignment: broadcast assignment transaction
          match h.Broadcast p.Email h.state.Epoch with
          | .error err =>
            ⟨some (.error ⟨32603, "Internal error", some ("Unable to broadcast: " ++ err)⟩),
              [(p.Email, h.state.Epoch)]⟩
          | .ok hash =>
            -- subscribe to updates
            let query := "tx.hash='" ++ hash ++ "'"
            -- wait for block to be committed
            let responseCh := h.RegisterQuery query 1
            match h.wait p.Email query responseCh.events with
            | .failed err => ⟨some (.error err), [(p.Email, h.state.Epoch)]⟩
            | .assigned assignedIndex =>
              ⟨some (h.respond params assignedIndex), [(p.Email, h.state.Epoch)]⟩
            | .drained =>
              if responseCh.closed then
                -- the loop ends with `assignedIndex` at its zero value
                ⟨some (h.respond params 0), [(p.Email, h.state.Epoch)]⟩
              else ⟨none, [(p.Email, h.state.Epoch)]⟩

/-! ### Sample requests and environments -/

/-- A signed record on the transcript `mug00|tokenCommitment|timestamp|google`. -/
def sampleSignature (tokenCommitment timestamp : String) : NodeSignature :=
  ⟨"valid", "mug00|" ++ tokenCommitment ++ "|x|y|" ++ timestamp ++ "|google|101", "", ""⟩

/-- A share-request environment: threshold `threshold`, clock `timeNow`, identity verifier
answering `verify`; a signature is valid when its `Signature` field reads `valid`, the map is
visited in insertion order, the stand-in for the hash of `t` is `h(t)`, and every request
unmarshals to `p`. -/
def sampleShareHandler (threshold : Int) (timeNow : Time) (verify : Bool × Option String)
    (p : ShareRequestParams) : ShareRequestHandler where
  Threshold := threshold
  Unmarshal := fun _ => .ok p
  Verify := fun _ => verify
  NodeValidation := fun sig => if sig.Signature = "valid" then .ok 1 else .error "bad signature"
  FromString := CommitmentRequestResultData.FromString
  rangeOrder := fun m => m
  Lookup := fun _ => .ok ⟨fun token => token⟩
  Keccak256Hex := fun token => "h(" ++ token ++ ")"
  TimeNow := timeNow
  SiMapping := some (some fun i => ⟨i, 7⟩)
  ABCIQuery := fun _ _ => .ok "1"
  Text16 := bigIntText16

/-- A commitment-request environment with the clock readings given; every request unmarshals
to `p`. -/
def sampleCommitmentHandler (timeNow : Time) (cacheGetNow cacheSetNow : Nat)
    (p : CommitmentRequestParams) : CommitmentRequestHandler where
  Unmarshal := fun _ => .ok p
  TimeNow := timeNow
  cacheGetNow := cacheGetNow
  cacheSetNow := cacheSetNow
  signNow := 101
  ToString := CommitmentRequestResultData.ToString
  Sign := fun data => "sig(" ++ data ++ ")"
  NodePubX := "1"
  NodePubY := "2"

/-- An assignment environment: the identifier `alice` is assigned the index 3 and `bob` the
index 50, shares exist for the indices below 10 (the key of index `i` has the coordinates
`100 + i` and `200 + i`), the address of a key is written `0x` followed by its X-coordinate,
the transaction hash is `ABCD`, an event is written as its query text, the re-query answers
`5`, and every request unmarshals to the email `email`. -/
def sampleAssignHandler (lastCreatedIndex lastUnassignedIndex : Nat) (responseCh : Channel)
    (email : String) : SecretAssignHandler where
  Unmarshal := fun _ => .ok ⟨email⟩
  state :=
    { EmailMapping := fun e =>
        if e = "alice" then some 3 else if e = "bob" then some 50
        else if e = "" then some 4 else none
      LastCreatedIndex := lastCreatedIndex
      LastUnassignedIndex := lastUnassignedIndex
      Epoch := 1 }
  retrieveUserPubKey := fun i =>
    if 0 ≤ i ∧ i < 10 then .ok ⟨100 + i, 200 + i⟩ else .error "no share for the index"
  PointToEthAddress := fun key => .ok ("0x" ++ bigIntText16 key.X)
  Broadcast := fun _ _ => .ok "ABCD"
  RegisterQuery := fun _ _ => responseCh
  eventQuery := fun e => e
  ABCIQuery := fun _ _ => .ok "5"
  SecretMapping := some (some fun _ => true)
  Text16 := bigIntText16

/-- The instant `sec` seconds and `nsec` nanoseconds after January 1, 1970. -/
def unixTime (sec nsec : Int) : Time := ⟨sec + unixToInternal, nsec⟩

end dkgnode

/-! ## Properties of package `pvss` -/

namespace pvss

section lemmas
variable {Pt : Type} [CurveLib Pt]

theorem order_nsmul_G : (CurveLib.GeneratorOrder Pt) • (CurveLib.G : Pt) = 0 :=
  (CurveLib.nsmul_G_eq_zero_iff _).2 (dvd_refl _)

theorem order_nsmul_H : (CurveLib.GeneratorOrder Pt) • (CurveLib.H : Pt) = 0 :=
  (CurveLib.nsmul_H_eq_zero_iff _).2 (dvd_refl _)

theorem GeneratorOrder_pos : 0 < CurveLib.GeneratorOrder Pt :=
  (@CurveLib.GeneratorOrder_prime Pt _).pos

/-- A scalar acts on a point of order dividing the group order through its residue. -/
theorem mod_nsmul_of_order {P : Pt} (hP : (CurveLib.GeneratorOrder Pt) • P = 0) (k : Nat) :
    (k % CurveLib.GeneratorOrder Pt) • P = k • P := by
  conv_rhs => rw [← Nat.div_add_mod k (CurveLib.GeneratorOrder Pt)]
  rw [add_nsmul, mul_nsmul, hP, nsmul_zero, zero_add]

theorem mod_nsmul_G (k : Nat) :
    (k % CurveLib.GeneratorOrder Pt) • (CurveLib.G : Pt) = k • CurveLib.G :=
  mod_nsmul_of_order order_nsmul_G k

theorem mod_nsmul_H (k : Nat) :
    (k % CurveLib.GeneratorOrder Pt) • (CurveLib.H : Pt) = k • CurveLib.H :=
  mod_nsmul_of_order order_nsmul_H k

/-- The term the verifiers add for a commitment `a • P`. -/
theorem term_nsmul {P : Pt} (hP : (CurveLib.GeneratorOrder Pt) • P = 0) (a x i : Nat) :
    (x ^ i % CurveLib.GeneratorOrder Pt) • a • P = (a * x ^ i) • P := by
  have h : (CurveLib.GeneratorOrder Pt) • a • P = 0 := by
    rw [smul_comm, hP, nsmul_zero]
  rw [mod_nsmul_of_order h, mul_nsmul]

/-- The right-hand side `VerifyShare` computes from the commitments to `coeffs`. -/
theorem VerifyShare.rhs_getCommit (index : Nat) (coeffs : List Nat) (i : Nat) (acc : Pt) :
    VerifyShare.rhs index (coeffs.map (fun a => a • (CurveLib.G : Pt))) i acc
      = acc + polySum index coeffs i • (CurveLib.G : Pt) := by
  induction coeffs generalizing i acc with
  | nil => simp [VerifyShare.rhs, polySum]
  | cons a as ih =>
    simp only [List.map_cons, VerifyShare.rhs, polySum]
    rw [ih, term_nsmul order_nsmul_G, add_nsmul, add_assoc]

/-- The function `polySum` from position 0 is the sum of `coeffs[i] * index ^ i`. -/
theorem polySum_eq_sum (index : Nat) (coeffs : List Nat) (s : Nat) :
    polySum index coeffs s
      = ((List.range coeffs.length).map (fun i => coeffs.getD i 0 * index ^ (i + s))).sum := by
  induction coeffs generalizing s with
  | nil => simp [polySum]
  | cons a as ih =>
    rw [polySum, ih, List.length_cons, List.range_succ_eq_map, List.map_cons, List.sum_cons,
      List.map_map]
    simp only [List.getD_cons_zero, zero_add, Function.comp_def, List.getD_cons_succ]
    congr 2
    apply List.map_congr_left
    intro i _
    rw [Nat.succ_eq_add_one, Nat.add_assoc, Nat.add_comm s 1]

theorem xor_two_pow_cases (v k : Nat) : v ^^^ 2 ^ k = v + 2 ^ k ∨ (v ^^^ 2 ^ k) + 2 ^ k = v := by
  induction k generalizing v with
  | zero =>
    rw [← Nat.bit_decomp v]
    have h1 : (2 : Nat) ^ 0 = Nat.bit true 0 := by simp [Nat.bit_val]
    rw [h1, Nat.xor_bit]
    cases v.bodd <;> simp [Nat.bit_val]
  | succ k ih =>
    rw [← Nat.bit_decomp v]
    have h1 : (2 : Nat) ^ (k + 1) = Nat.bit false (2 ^ k) := by simp [Nat.bit_val, pow_succ, mul_comm]
    rw [h1, Nat.xor_bit]
    rcases ih v.div2 with h | h
    · left
      rw [h]
      cases v.bodd <;> simp [Nat.bit_val] <;> omega
    · right
      have : Nat.bit v.bodd v.div2 = Nat.bit v.bodd ((v.div2 ^^^ 2 ^ k) + 2 ^ k) := by rw [h]
      rw [this]
      cases v.bodd <;> simp [Nat.bit_val] <;> omega


/-- A commitment vector that agrees entry by entry with the commitments to `coeffs`. -/
theorem pubPoly_eq_map (coeffs : List Nat) (pubPoly : List Pt)
    (hlen : pubPoly.length = coeffs.length)
    (hpub : ∀ i, i < coeffs.length → pubPoly[i]? = some (coeffs.getD i 0 • (CurveLib.G : Pt))) :
    pubPoly = coeffs.map (fun a => a • (CurveLib.G : Pt)) := by
  apply List.ext_getElem?
  intro i
  by_cases hi : i < coeffs.length
  · rw [hpub i hi, List.getElem?_map, List.getD_eq_getElem?_getD, List.getElem?_eq_getElem hi]
    simp
  · have h1 : pubPoly.length ≤ i := by omega
    have h2 : (coeffs.map (fun a => a • (CurveLib.G : Pt))).length ≤ i := by
      rw [List.length_map]; omega
    rw [List.getElem?_eq_none h1, List.getElem?_eq_none h2]

/-- The right-hand side `VerifyShare` computes for an honest commitment vector is the
commitment to the share value. -/
theorem VerifyShare.rhs_honest (coeffs : List Nat) (x : Nat) (share : PrimaryShare)
    (hvalue : share.Value
      = ((List.range coeffs.length).map (fun i => coeffs.getD i 0 * x ^ i)).sum
          % CurveLib.GeneratorOrder Pt) :
    VerifyShare.rhs x (coeffs.map (fun a => a • (CurveLib.G : Pt))) 0 0
      = share.Value • (CurveLib.G : Pt) := by
  rw [VerifyShare.rhs_getCommit, zero_add, hvalue, mod_nsmul_G, polySum_eq_sum]
  simp

theorem GeneratorOrder_not_dvd_two_pow (k : Nat) : ¬ CurveLib.GeneratorOrder Pt ∣ 2 ^ k := by
  intro h
  have h2 : CurveLib.GeneratorOrder Pt ∣ 2 :=
    (@CurveLib.GeneratorOrder_prime Pt _).dvd_of_dvd_pow h
  have h3 : CurveLib.GeneratorOrder Pt = 2 :=
    (Nat.prime_dvd_prime_iff_eq CurveLib.GeneratorOrder_prime Nat.prime_two).1 h2
  have h4 := @CurveLib.GeneratorOrder_odd Pt _
  omega

/-- Flipping bit 0 of an odd number clears it. -/
theorem xor_one_of_odd (m : Nat) : (2 * m + 1) ^^^ 1 = 2 * m := by
  have h := Nat.xor_bit true m true 0
  simpa [Nat.bit_val] using h

/-- Two multiples of the base point differ when the scalars differ by a power of two. -/
theorem nsmul_G_flip_ne (v k : Nat) :
    (v ^^^ 2 ^ k) • (CurveLib.G : Pt) ≠ v • (CurveLib.G : Pt) := by
  intro h
  apply @GeneratorOrder_not_dvd_two_pow Pt _ k
  rw [← CurveLib.nsmul_G_eq_zero_iff]
  rcases xor_two_pow_cases v k with hc | hc
  · rw [hc, add_nsmul] at h
    exact add_right_eq_self.mp h
  · have h' : (v ^^^ 2 ^ k) • (CurveLib.G : Pt) = ((v ^^^ 2 ^ k) + 2 ^ k) • (CurveLib.G : Pt) := by
      rw [hc]; exact h
    rw [add_nsmul] at h'
    exact add_right_eq_self.mp h'.symm


/-- A loop that stores `v i` at position `i`, for `i` below `k`, leaves the first `k`
entries equal to `v 0, …, v (k-1)` and the rest untouched. -/
theorem foldlM_set_range {α : Type} (step : List α → Nat → Option (List α)) (v : Nat → α)
    (n : Nat) (init : List α) (hlen : init.length = n)
    (hstep : ∀ acc i, i < n → acc.length = n → step acc i = some (acc.set i (v i)))
    (k : Nat) (hk : k ≤ n) :
    (List.range k).foldlM step init = some ((List.range k).map v ++ init.drop k) := by
  induction k with
  | zero => simp
  | succ k ih =>
    have hk' : k < n := hk
    rw [List.range_succ, List.foldlM_append, ih (Nat.le_of_lt hk')]
    have hl : ((List.range k).map v ++ init.drop k).length = n := by
      simp only [List.length_append, List.length_map, List.length_range, List.length_drop]
      omega
    simp only [Option.bind_eq_bind, Option.some_bind, List.foldlM_cons, List.foldlM_nil]
    rw [hstep _ k hk' hl]
    simp only [Option.some_bind, pure, Option.some.injEq]
    have hd : init.drop k = init[k] :: init.drop (k + 1) :=
      List.drop_eq_getElem_cons (by omega)
    rw [List.set_append]
    simp only [List.length_map, List.length_range, lt_irrefl, if_false, Nat.sub_self]
    rw [hd, List.set_cons_zero, List.map_append, List.append_assoc]
    rfl

/-- Reading two lists position by position is zipping them. -/
theorem map_range_eq_zipWith {α : Type} (f : Nat → Nat → α) (as bs : List Nat)
    (hl : as.length = bs.length) :
    (List.range as.length).map (fun i => f (as.getD i 0) (bs.getD i 0)) = List.zipWith f as bs := by
  apply List.ext_getElem?
  intro i
  by_cases hi : i < as.length
  · have hi' : i < bs.length := hl ▸ hi
    simp [List.getElem?_zipWith, List.getElem?_range, hi, hi', List.getD_eq_getElem?_getD,
      List.getElem?_eq_getElem]
  · have hi' : ¬ i < bs.length := hl ▸ hi
    rw [List.getElem?_eq_none, List.getElem?_eq_none]
    · simp; omega
    · simp; omega

/-- The commitments `getCommitH` returns for a polynomial with `Threshold` coefficients. -/
theorem getCommitH_eq (polynomial : PrimaryPolynomial)
    (hT : polynomial.Threshold = (polynomial.Coeff.length : Int)) :
    (getCommitH polynomial : Option (List Pt))
      = some (polynomial.Coeff.map (fun b => b • (CurveLib.H : Pt))) := by
  have hneg : ¬ polynomial.Threshold < 0 := by omega
  simp only [getCommitH, makePoints, hneg, if_false, Option.bind_eq_bind, Option.some_bind,
    List.length_replicate]
  rw [foldlM_set_range _ (fun i => polynomial.Coeff.getD i 0 • (CurveLib.H : Pt))
    polynomial.Threshold.toNat _ (by simp) _ _ (le_refl _)]
  · have hn : polynomial.Threshold.toNat = polynomial.Coeff.length := by omega
    rw [List.drop_of_length_le (by simp), List.append_nil, hn]
    have := map_range_eq_zipWith (fun a _ => a • (CurveLib.H : Pt)) polynomial.Coeff
      polynomial.Coeff rfl
    rw [this]
    congr 1
    apply List.ext_getElem?
    intro i
    simp [List.getElem?_zipWith]
  · intro acc i hi _
    have hi' : i < polynomial.Coeff.length := by omega
    simp [List.getElem?_eq_getElem hi', List.getD_eq_getElem?_getD]

theorem mainCoeff_length (rand : Nat → Nat) (secret : Nat) (threshold : Int) (h : 1 ≤ threshold) :
    ((mainCoeff rand secret threshold).length : Int) = threshold := by
  simp [mainCoeff]; omega

theorem blindCoeff_length (rand : Nat → Nat) (threshold : Int) (h : 1 ≤ threshold) :
    ((blindCoeff rand threshold).length : Int) = threshold := by
  simp [blindCoeff]; omega

/-- The value `CreateSharesGen` returns for a positive threshold. -/
theorem CreateSharesGen_eq (rand : Nat → Nat) (nodes : List Node) (secret : Nat)
    (threshold : Int) (h : 1 ≤ threshold) :
    CreateSharesGen Pt rand nodes secret threshold = some
      { shares := getShares Pt ⟨mainCoeff rand secret threshold, threshold⟩ nodes
        sharesPrime := getShares Pt ⟨blindCoeff rand threshold, threshold⟩ nodes
        pubPoly := (mainCoeff rand secret threshold).map (fun a => a • (CurveLib.G : Pt))
        Ci := List.zipWith (fun a b => a • (CurveLib.G : Pt) + b • (CurveLib.H : Pt))
          (mainCoeff rand secret threshold) (blindCoeff rand threshold)
        err := none } := by
  have h0 : ¬ threshold ≤ 0 := by omega
  have hneg : ¬ threshold < 0 := by omega
  have hm := mainCoeff_length rand secret threshold h
  have hb := blindCoeff_length rand threshold h
  have hH := @getCommitH_eq Pt _ ⟨blindCoeff rand threshold, threshold⟩ hb.symm
  simp only [blindCoeff] at hH
  simp only [CreateSharesGen, generateRandomZeroPolynomial, h0, if_false, Option.bind_eq_bind,
    Option.some_bind, hH, makePoints, hneg, getCommit, mainCoeff, blindCoeff]
  rw [foldlM_set_range _ (fun i => (mainCoeff rand secret threshold).getD i 0 • (CurveLib.G : Pt)
      + (blindCoeff rand threshold).getD i 0 • (CurveLib.H : Pt)) threshold.toNat _ (by simp) _ _
      (by simp [mainCoeff]; omega)]
  · have hn : threshold.toNat = (mainCoeff rand secret threshold).length := by omega
    have hz := map_range_eq_zipWith
      (fun a b => a • (CurveLib.G : Pt) + b • (CurveLib.H : Pt))
      (mainCoeff rand secret threshold) (blindCoeff rand threshold) (by omega)
    simp only [mainCoeff, blindCoeff] at hz hn ⊢
    simp only [List.length_map, Option.some_bind, Option.some.injEq]
    rw [List.drop_of_length_le (by simp; omega), List.append_nil]
    simp only [List.length_cons, List.length_map, List.length_range] at hz ⊢
    rw [hz]
  · intro acc i hi hacc
    have hi1 : i < (mainCoeff rand secret threshold).length := by omega
    have hi2 : i < (blindCoeff rand threshold).length := by omega
    simp only [CreateSharesGen.step, Option.bind_eq_bind]
    have e1 : (List.map (fun a => a • (CurveLib.G : Pt)) (mainCoeff rand secret threshold))[i]?
        = some ((mainCoeff rand secret threshold).getD i 0 • (CurveLib.G : Pt)) := by
      simp [List.getElem?_eq_getElem hi1, List.getD_eq_getElem?_getD]
    have e2 : (List.map (fun b => b • (CurveLib.H : Pt)) (blindCoeff rand threshold))[i]?
        = some ((blindCoeff rand threshold).getD i 0 • (CurveLib.H : Pt)) := by
      simp [List.getElem?_eq_getElem hi2, List.getD_eq_getElem?_getD]
    simp only [mainCoeff, blindCoeff] at e1 e2 ⊢
    rw [e1, e2]
    simp [hacc, hi]

/-- The right-hand side `VerifyPedersonCommitment` computes from the Pedersen commitments to
two coefficient lists of the same length. -/
theorem VerifyPedersonCommitment.rhs_zipWith (index : Nat) (as bs : List Nat)
    (hl : as.length = bs.length) (i : Nat) (acc : Pt) :
    VerifyPedersonCommitment.rhs index
        (List.zipWith (fun a b => a • (CurveLib.G : Pt) + b • (CurveLib.H : Pt)) as bs) i acc
      = acc + (polySum index as i • (CurveLib.G : Pt) + polySum index bs i • (CurveLib.H : Pt)) := by
  induction as generalizing bs i acc with
  | nil =>
    cases bs with
    | nil => simp [VerifyPedersonCommitment.rhs, polySum]
    | cons b bs => simp at hl
  | cons a as ih =>
    cases bs with
    | nil => simp at hl
    | cons b bs =>
      simp only [List.zipWith_cons_cons, VerifyPedersonCommitment.rhs, polySum]
      rw [ih bs (by simpa using hl), nsmul_add, term_nsmul order_nsmul_G,
        term_nsmul order_nsmul_H, add_nsmul, add_nsmul]
      abel


/-- The result of `VerifyPedersonCommitment` on the Pedersen commitments to two coefficient
lists: the X-coordinate of the submitted pair is compared with that of the honest pair. -/
theorem VerifyPedersonCommitment_zipWith (share sharePrime : PrimaryShare) (as bs : List Nat)
    (hl : as.length = bs.length) (index : Nat) :
    VerifyPedersonCommitment share sharePrime
        (List.zipWith (fun a b => a • (CurveLib.G : Pt) + b • (CurveLib.H : Pt)) as bs) index
      = decide (CurveLib.X (share.Value • (CurveLib.G : Pt) + sharePrime.Value • (CurveLib.H : Pt))
          = CurveLib.X ((polySum index as 0 % CurveLib.GeneratorOrder Pt) • (CurveLib.G : Pt)
              + (polySum index bs 0 % CurveLib.GeneratorOrder Pt) • (CurveLib.H : Pt))) := by
  simp only [VerifyPedersonCommitment]
  rw [VerifyPedersonCommitment.rhs_zipWith index as bs hl, zero_add, mod_nsmul_G, mod_nsmul_H]
  by_cases hX : CurveLib.X (share.Value • (CurveLib.G : Pt) + sharePrime.Value • (CurveLib.H : Pt))
      = CurveLib.X (polySum index as 0 • (CurveLib.G : Pt) + polySum index bs 0 • (CurveLib.H : Pt))
  · simp [hX]
  · simp [hX]

/-- Reduced scalars that give the same multiple of `H` are equal. -/
theorem nsmul_H_inj_of_lt {a b : Nat} (ha : a < CurveLib.GeneratorOrder Pt)
    (hb : b < CurveLib.GeneratorOrder Pt)
    (h : a • (CurveLib.H : Pt) = b • (CurveLib.H : Pt)) : a = b := by
  have key : ∀ c d : Nat, c ≤ d → d < CurveLib.GeneratorOrder Pt →
      c • (CurveLib.H : Pt) = d • (CurveLib.H : Pt) → c = d := by
    intro c d hcd hd hEq
    have hsplit : d = c + (d - c) := by omega
    rw [hsplit, add_nsmul] at hEq
    have hz : (d - c) • (CurveLib.H : Pt) = 0 := add_right_eq_self.mp hEq.symm
    have hdvd := (CurveLib.nsmul_H_eq_zero_iff (d - c)).1 hz
    have := Nat.eq_zero_of_dvd_of_lt hdvd (by omega)
    omega
  rcases Nat.le_total a b with hab | hab
  · exact key a b hab hb h
  · exact (key b a hab ha h.symm).symm

/-- The shares `getShares` returns, read by position. -/
theorem getShares_getElem? (polynomial : PrimaryPolynomial) (nodes : List Node) (k : Nat)
    (hk : k < nodes.length) :
    (getShares Pt polynomial nodes)[k]?
      = some ⟨nodes[k].Index, evaluate Pt polynomial nodes[k].Index⟩ := by
  simp [getShares, List.getElem?_eq_getElem hk]

end lemmas

/-- C5: an honest share (its value is the polynomial evaluated at `x` modulo the group order)
verifies against the commitments `pubPoly[i] = G^{a_i}` to the polynomial: `VerifyShare`
returns true. -/
theorem VerifyShare_honest {Pt : Type} [CurveLib Pt] (coeffs : List Nat) (x : Nat)
    (share : PrimaryShare) (pubPoly : List Pt)
    (ht : 1 ≤ coeffs.length)
    (hvalue : share.Value
      = ((List.range coeffs.length).map (fun i => coeffs.getD i 0 * x ^ i)).sum
          % CurveLib.GeneratorOrder Pt)
    (hlen : pubPoly.length = coeffs.length)
    (hpub : ∀ i, i < coeffs.length → pubPoly[i]? = some (coeffs.getD i 0 • (CurveLib.G : Pt))) :
    VerifyShare share pubPoly x = true := by
  have _ := ht
  rw [pubPoly_eq_map coeffs pubPoly hlen hpub]
  simp only [VerifyShare]
  rw [VerifyShare.rhs_honest coeffs x share hvalue]
  simp

/-- Witness for C5 on the 13-point curve: the polynomial `5 + 3·x` at `x = 2` has the value
`11`, and the share `(2, 11)` verifies against `[5 • G, 3 • G]`. -/
theorem VerifyShare_honest_witness :
    VerifyShare ⟨2, 11⟩ [(5 : Nat) • (CurveLib.G : ZMod 13), (3 : Nat) • (CurveLib.G : ZMod 13)] 2
      = true :=
  VerifyShare_honest [5, 3] 2 ⟨2, 11⟩ _ (by decide) (by decide) (by decide) (by decide)

/-- C6, counterexample: on the 13-point curve the constant polynomial `7` gives the honest share
value `7`; flipping bit 0 gives `6 = 13 - 7`, the opposite scalar, and `VerifyShare` still
returns true. -/
theorem VerifyShare_flipBit_counterexample :
    (7 : Nat) = ((List.range [7].length).map (fun i => [7].getD i 0 * 3 ^ i)).sum
        % CurveLib.GeneratorOrder (ZMod 13)
      ∧ (flipBit ⟨3, 7⟩ 0).Value = 6
      ∧ VerifyShare (flipBit ⟨3, 7⟩ 0) [(7 : Nat) • (CurveLib.G : ZMod 13)] 3 = true := by
  decide

/-- C6, amended: for an honest share and any bit position `k`, `VerifyShare` on the share with
bit `k` of its value flipped returns false exactly when the flipped value is not the opposite
of the original value modulo the group order. -/
theorem VerifyShare_flipBit_honest {Pt : Type} [CurveLib Pt] (coeffs : List Nat) (x : Nat)
    (share : PrimaryShare) (pubPoly : List Pt) (k : Nat)
    (hvalue : share.Value
      = ((List.range coeffs.length).map (fun i => coeffs.getD i 0 * x ^ i)).sum
          % CurveLib.GeneratorOrder Pt)
    (hlen : pubPoly.length = coeffs.length)
    (hpub : ∀ i, i < coeffs.length → pubPoly[i]? = some (coeffs.getD i 0 • (CurveLib.G : Pt))) :
    VerifyShare (flipBit share k) pubPoly x = false
      ↔ ¬ CurveLib.GeneratorOrder Pt ∣ (share.Value ^^^ 2 ^ k) + share.Value := by
  rw [pubPoly_eq_map coeffs pubPoly hlen hpub]
  simp only [VerifyShare, flipBit]
  rw [VerifyShare.rhs_honest coeffs x share hvalue, ← CurveLib.nsmul_G_eq_zero_iff, add_nsmul,
    ← eq_neg_iff_add_eq_zero]
  have hne := @nsmul_G_flip_ne Pt _ share.Value k
  have hx := CurveLib.X_eq_iff ((share.Value ^^^ 2 ^ k) • (CurveLib.G : Pt))
    (share.Value • (CurveLib.G : Pt))
  constructor
  · intro h hneg
    have : CurveLib.X ((share.Value ^^^ 2 ^ k) • (CurveLib.G : Pt))
        = CurveLib.X (share.Value • (CurveLib.G : Pt)) := hx.2 (Or.inr hneg)
    simp [this] at h
  · intro h
    have : ¬ CurveLib.X ((share.Value ^^^ 2 ^ k) • (CurveLib.G : Pt))
        = CurveLib.X (share.Value • (CurveLib.G : Pt)) := by
      intro hX
      rcases hx.1 hX with h1 | h1
      · exact hne h1
      · exact h h1
    simp [this]

/-- Witness for C6 (amended) on the 13-point curve: the honest share value `11` of `5 + 3·x` at
`x = 2` with bit 0 flipped is `10`; `10 + 11 = 21` is not a multiple of 13 and the flipped share
is rejected. -/
theorem VerifyShare_flipBit_honest_witness :
    VerifyShare (flipBit ⟨2, 11⟩ 0)
        [(5 : Nat) • (CurveLib.G : ZMod 13), (3 : Nat) • (CurveLib.G : ZMod 13)] 2 = false :=
  (VerifyShare_flipBit_honest [5, 3] 2 ⟨2, 11⟩ _ 0 (by decide) (by decide) (by decide)).2
    (by decide)

/-- The order of secp256k1 leaves the remainder 1 when divided by 4. -/
theorem secp256k1Order_mod_four : secp256k1Order % 4 = 1 := by
  decide

/-- On every curve library whose group order leaves the remainder 1 when divided by 4, as the
order of secp256k1 does, the honest share of the constant polynomial `(order + 1) / 2` still
verifies after bit 0 of its value is flipped: the flipped value is the opposite scalar. -/
theorem VerifyShare_flipBit_half_order {Pt : Type} [CurveLib Pt]
    (hN : CurveLib.GeneratorOrder Pt % 4 = 1) (x : Nat) :
    ((CurveLib.GeneratorOrder Pt + 1) / 2
        = ((List.range [(CurveLib.GeneratorOrder Pt + 1) / 2].length).map
            (fun i => [(CurveLib.GeneratorOrder Pt + 1) / 2].getD i 0 * x ^ i)).sum
          % CurveLib.GeneratorOrder Pt)
    ∧ VerifyShare (flipBit ⟨x, (CurveLib.GeneratorOrder Pt + 1) / 2⟩ 0)
        [((CurveLib.GeneratorOrder Pt + 1) / 2) • (CurveLib.G : Pt)] x = true := by
  obtain ⟨m, hm⟩ : ∃ m, CurveLib.GeneratorOrder Pt = 4 * m + 1 :=
    ⟨CurveLib.GeneratorOrder Pt / 4, by omega⟩
  have hv : (CurveLib.GeneratorOrder Pt + 1) / 2 = 2 * m + 1 := by omega
  have hlt : 2 * m + 1 < CurveLib.GeneratorOrder Pt := by
    have hp := (@CurveLib.GeneratorOrder_prime Pt _).two_le
    omega
  have hone : 1 % CurveLib.GeneratorOrder Pt = 1 :=
    Nat.mod_eq_of_lt (@CurveLib.GeneratorOrder_prime Pt _).one_lt
  constructor
  · rw [hv]
    have hr : List.range 1 = [0] := rfl
    simp [hr, Nat.mod_eq_of_lt hlt]
  · have hneg : (2 * m) • (CurveLib.G : Pt) = -((2 * m + 1) • (CurveLib.G : Pt)) := by
      rw [eq_neg_iff_add_eq_zero, ← add_nsmul, CurveLib.nsmul_G_eq_zero_iff, hm]
      exact ⟨1, by omega⟩
    simp only [VerifyShare, flipBit, VerifyShare.rhs, hv, xor_one_of_odd, pow_zero, hone,
      zero_add, one_nsmul]
    rw [(CurveLib.X_eq_iff _ _).2 (Or.inr hneg)]
    simp

/-- C7: for a positive threshold `CreateSharesGen` returns a result, with one share and one
blinding share per node, and for every node `k` the pair `(shares[k], sharesPrime[k])` verifies
against `Ci` at the node's index: `VerifyPedersonCommitment` returns true. -/
theorem CreateSharesGen_VerifyPedersonCommitment {Pt : Type} [CurveLib Pt] (rand : Nat → Nat)
    (nodes : List Node) (secret : Nat) (threshold : Int) (h : 1 ≤ threshold) :
    ∃ r, CreateSharesGen Pt rand nodes secret threshold = some r
      ∧ r.shares.length = nodes.length ∧ r.sharesPrime.length = nodes.length
      ∧ ∀ k (hk : k < nodes.length) (share sharePrime : PrimaryShare),
          r.shares[k]? = some share → r.sharesPrime[k]? = some sharePrime →
          VerifyPedersonCommitment share sharePrime r.Ci nodes[k].Index = true := by
  refine ⟨_, CreateSharesGen_eq rand nodes secret threshold h, by simp [getShares],
    by simp [getShares], ?_⟩
  intro k hk share sharePrime hs hs'
  have hl : (mainCoeff rand secret threshold).length = (blindCoeff rand threshold).length := by
    have := mainCoeff_length rand secret threshold h
    have := blindCoeff_length rand threshold h
    omega
  simp only at hs hs' ⊢
  rw [getShares_getElem? _ _ k hk] at hs hs'
  cases hs
  cases hs'
  rw [VerifyPedersonCommitment_zipWith _ _ _ _ hl]
  simp [evaluate]

/-- Witness for C7 on the 13-point curve: two nodes with indices 1 and 2, secret 5,
threshold 2. -/
theorem CreateSharesGen_VerifyPedersonCommitment_witness :
    ∃ r, CreateSharesGen (ZMod 13) (fun k => k + 2) [⟨1⟩, ⟨2⟩] 5 2 = some r
      ∧ r.shares.length = [(⟨1⟩ : Node), ⟨2⟩].length
      ∧ r.sharesPrime.length = [(⟨1⟩ : Node), ⟨2⟩].length
      ∧ ∀ k (hk : k < [(⟨1⟩ : Node), ⟨2⟩].length) (share sharePrime : PrimaryShare),
          r.shares[k]? = some share → r.sharesPrime[k]? = some sharePrime →
          VerifyPedersonCommitment share sharePrime r.Ci [(⟨1⟩ : Node), ⟨2⟩][k].Index = true :=
  CreateSharesGen_VerifyPedersonCommitment (fun k => k + 2) [⟨1⟩, ⟨2⟩] 5 2 (by decide)

/-- C8, counterexample: with threshold 1 the blinding polynomial is constant, every node
receives the same blinding share, and node 0's share still verifies with node 1's blinding
share (13-point curve, node indices 1 and 2, secret 5). -/
theorem VerifyPedersonCommitment_substituted_counterexample :
    ((CreateSharesGen (ZMod 13) (fun k => k + 2) [⟨1⟩, ⟨2⟩] 5 1).bind fun r =>
      (r.shares[0]?).bind fun share =>
      (r.sharesPrime[1]?).bind fun sharePrime =>
        some (VerifyPedersonCommitment share sharePrime r.Ci 1)) = some true := by
  decide

/-- With threshold 1 every node's blinding share has the same value, on every curve library:
for all nodes `k` and `j`, node `k`'s share verifies with node `j`'s blinding share. -/
theorem VerifyPedersonCommitment_threshold_one {Pt : Type} [CurveLib Pt] (rand : Nat → Nat)
    (nodes : List Node) (secret : Nat) :
    ∃ r, CreateSharesGen Pt rand nodes secret 1 = some r
      ∧ ∀ k j (hk : k < nodes.length) (_ : j < nodes.length)
          (share sharePrimeJ : PrimaryShare),
          r.shares[k]? = some share → r.sharesPrime[j]? = some sharePrimeJ →
          VerifyPedersonCommitment share sharePrimeJ r.Ci nodes[k].Index = true := by
  refine ⟨_, CreateSharesGen_eq rand nodes secret 1 (le_refl _), ?_⟩
  intro k j hk hj share sharePrimeJ hs hsJ
  simp only at hs hsJ ⊢
  rw [getShares_getElem? _ _ k hk] at hs
  rw [getShares_getElem? _ _ j hj] at hsJ
  cases hs
  cases hsJ
  rw [VerifyPedersonCommitment_zipWith _ _ _ _ (by simp [mainCoeff, blindCoeff])]
  simp [evaluate, mainCoeff, blindCoeff, polySum]

/-- C8, amended: for the output of `CreateSharesGen` with a positive threshold and nodes `k`
and `j`, `VerifyPedersonCommitment(shares[k], sharesPrime[j], Ci, nodes[k].Index)` returns false
exactly when the two blinding shares have different values and the submitted pair
`G^{shares[k]} · H^{sharesPrime[j]}` is not the inverse of the honest pair
`G^{shares[k]} · H^{sharesPrime[k]}`. -/
theorem VerifyPedersonCommitment_substituted {Pt : Type} [CurveLib Pt] (rand : Nat → Nat)
    (nodes : List Node) (secret : Nat) (threshold : Int) (h : 1 ≤ threshold) :
    ∃ r, CreateSharesGen Pt rand nodes secret threshold = some r
      ∧ ∀ k j (hk : k < nodes.length) (_ : j < nodes.length)
          (share sharePrimeK sharePrimeJ : PrimaryShare),
          r.shares[k]? = some share → r.sharesPrime[k]? = some sharePrimeK →
          r.sharesPrime[j]? = some sharePrimeJ →
          (VerifyPedersonCommitment share sharePrimeJ r.Ci nodes[k].Index = false
            ↔ sharePrimeJ.Value ≠ sharePrimeK.Value
              ∧ share.Value • (CurveLib.G : Pt) + sharePrimeJ.Value • (CurveLib.H : Pt)
                ≠ -(share.Value • (CurveLib.G : Pt) + sharePrimeK.Value • (CurveLib.H : Pt))) := by
  refine ⟨_, CreateSharesGen_eq rand nodes secret threshold h, ?_⟩
  intro k j hk hj share sharePrimeK sharePrimeJ hs hsK hsJ
  have hl : (mainCoeff rand secret threshold).length = (blindCoeff rand threshold).length := by
    have := mainCoeff_length rand secret threshold h
    have := blindCoeff_length rand threshold h
    omega
  simp only at hs hsK hsJ ⊢
  rw [getShares_getElem? _ _ k hk] at hs hsK
  rw [getShares_getElem? _ _ j hj] at hsJ
  cases hs
  cases hsK
  cases hsJ
  rw [VerifyPedersonCommitment_zipWith _ _ _ _ hl]
  simp only [evaluate, decide_eq_false_iff_not, ne_eq]
  rw [CurveLib.X_eq_iff, not_or]
  have hN := @GeneratorOrder_pos Pt _
  constructor
  · rintro ⟨h1, h2⟩
    refine ⟨?_, h2⟩
    intro hv
    apply h1
    rw [hv]
  · rintro ⟨h1, h2⟩
    refine ⟨?_, h2⟩
    intro hEq
    apply h1
    exact @nsmul_H_inj_of_lt Pt _ _ _ (Nat.mod_lt _ hN) (Nat.mod_lt _ hN)
      (add_left_cancel hEq)

/-- Witness for C8 (amended) on the 13-point curve: two nodes with indices 1 and 2, secret 5,
threshold 2. -/
theorem VerifyPedersonCommitment_substituted_witness :
    ∃ r, CreateSharesGen (ZMod 13) (fun k => k + 2) [⟨1⟩, ⟨2⟩] 5 2 = some r
      ∧ ∀ k j (hk : k < [(⟨1⟩ : Node), ⟨2⟩].length) (_ : j < [(⟨1⟩ : Node), ⟨2⟩].length)
          (share sharePrimeK sharePrimeJ : PrimaryShare),
          r.shares[k]? = some share → r.sharesPrime[k]? = some sharePrimeK →
          r.sharesPrime[j]? = some sharePrimeJ →
          (VerifyPedersonCommitment share sharePrimeJ r.Ci [(⟨1⟩ : Node), ⟨2⟩][k].Index = false
            ↔ sharePrimeJ.Value ≠ sharePrimeK.Value
              ∧ share.Value • (CurveLib.G : ZMod 13) + sharePrimeJ.Value • (CurveLib.H : ZMod 13)
                ≠ -(share.Value • (CurveLib.G : ZMod 13)
                    + sharePrimeK.Value • (CurveLib.H : ZMod 13))) :=
  VerifyPedersonCommitment_substituted (fun k => k + 2) [⟨1⟩, ⟨2⟩] 5 2 (by decide)

/-! ### The three verifiers compared -/

/-- The sum of the terms `(index^(i+j) mod order) • l[j]` over the positions `j` of `l`. -/
theorem shifted_sum_cons {Pt : Type} [CurveLib Pt] (index : Nat) (c : Pt) (cs : List Pt)
    (i : Nat) :
    ((List.range (c :: cs).length).map
        (fun j => (index ^ (j + i) % CurveLib.GeneratorOrder Pt) • (c :: cs).getD j 0)).sum
      = (index ^ i % CurveLib.GeneratorOrder Pt) • c
        + ((List.range cs.length).map
            (fun j => (index ^ (j + (i + 1)) % CurveLib.GeneratorOrder Pt) • cs.getD j 0)).sum := by
  rw [List.length_cons, List.range_succ_eq_map, List.map_cons, List.sum_cons, List.map_map]
  simp only [List.getD_cons_zero, zero_add, Function.comp_def, List.getD_cons_succ]
  congr 2
  apply List.map_congr_left
  intro j _
  rw [Nat.succ_eq_add_one, Nat.add_assoc, Nat.add_comm i 1]

/-- The loop of `VerifyShare` adds to its accumulator the sum of the scaled commitments. -/
theorem VerifyShare_rhs_eq_sum {Pt : Type} [CurveLib Pt] (index : Nat) (pubPoly : List Pt)
    (i : Nat) (acc : Pt) :
    VerifyShare.rhs index pubPoly i acc
      = acc + ((List.range pubPoly.length).map
          (fun j => (index ^ (j + i) % CurveLib.GeneratorOrder Pt) • pubPoly.getD j 0)).sum := by
  induction pubPoly generalizing i acc with
  | nil => simp [VerifyShare.rhs]
  | cons c cs ih =>
    rw [shifted_sum_cons, VerifyShare.rhs, ih, add_assoc]

/-- The loop of `VerifyShareCommitment` adds to its accumulator the sum of the scaled
commitments. -/
theorem VerifyShareCommitment_rhs_eq_sum {Pt : Type} [CurveLib Pt] (index : Nat)
    (pubPoly : List Pt) (i : Nat) (acc : Pt) :
    VerifyShareCommitment.rhs index pubPoly i acc
      = acc + ((List.range pubPoly.length).map
          (fun j => (index ^ (j + i) % CurveLib.GeneratorOrder Pt) • pubPoly.getD j 0)).sum := by
  induction pubPoly generalizing i acc with
  | nil => simp [VerifyShareCommitment.rhs]
  | cons c cs ih =>
    rw [shifted_sum_cons, VerifyShareCommitment.rhs, ih, add_assoc]

/-- C14: `VerifyShare(share, pubPoly, index)` equals
`VerifyShareCommitment(G^{share.Value}, pubPoly, index)`, for every share, commitment vector and
index; both procedures compute as right-hand side the sum over `i < len(pubPoly)` of
`pubPoly[i]` scaled by `index^i mod groupOrder`. -/
theorem VerifyShare_eq_VerifyShareCommitment {Pt : Type} [CurveLib Pt] (share : PrimaryShare)
    (pubPoly : List Pt) (index : Nat) :
    VerifyShare share pubPoly index
        = VerifyShareCommitment (share.Value • (CurveLib.G : Pt)) pubPoly index
      ∧ VerifyShare.rhs index pubPoly 0 (0 : Pt) = commitmentSum pubPoly index
      ∧ VerifyShareCommitment.rhs index pubPoly 0 (0 : Pt) = commitmentSum pubPoly index := by
  have h1 : VerifyShare.rhs index pubPoly 0 (0 : Pt) = commitmentSum pubPoly index := by
    rw [VerifyShare_rhs_eq_sum, zero_add]
    rfl
  have h2 : VerifyShareCommitment.rhs index pubPoly 0 (0 : Pt) = commitmentSum pubPoly index := by
    rw [VerifyShareCommitment_rhs_eq_sum, zero_add]
    rfl
  refine ⟨?_, h1, h2⟩
  simp only [VerifyShare, VerifyShareCommitment, h1, h2]

/-- The polynomials `CreateSharesGen` generates for a positive threshold. -/
theorem generateRandomZeroPolynomial_eq (rand : Nat → Nat) (secret : Nat) (threshold : Int)
    (h : 1 ≤ threshold) :
    generateRandomZeroPolynomial rand 0 secret threshold
        = some (⟨mainCoeff rand secret threshold, threshold⟩, 0 + (threshold.toNat - 1))
      ∧ generateRandomZeroPolynomial rand (0 + (threshold.toNat - 1) + 1)
          (rand (0 + (threshold.toNat - 1))) threshold
        = some (⟨blindCoeff rand threshold, threshold⟩,
            0 + (threshold.toNat - 1) + 1 + (threshold.toNat - 1)) := by
  have h0 : ¬ threshold ≤ 0 := by omega
  simp [generateRandomZeroPolynomial, h0, mainCoeff, blindCoeff]

/-- C15: for a positive threshold `CreateSharesGen` returns (no index is out of range, in it or
in `getCommitH`) with a nil error, `shares` and `sharesPrime` have one entry per node, `pubPoly`
and `Ci` have `threshold` entries, and for every `i < threshold`, `pubPoly[i] = G^{a_i}` and
`Ci[i] = pubPoly[i] + H^{b_i}` for the coefficients `a_i` of the main polynomial and `b_i` of the
blinding polynomial. -/
theorem CreateSharesGen_shape {Pt : Type} [CurveLib Pt] (rand : Nat → Nat) (nodes : List Node)
    (secret : Nat) (threshold : Int) (h : 1 ≤ threshold) :
    ∃ polynomial polynomialPrime ctr ctr' r,
      generateRandomZeroPolynomial rand 0 secret threshold = some (polynomial, ctr)
      ∧ generateRandomZeroPolynomial rand (ctr + 1) (rand ctr) threshold
          = some (polynomialPrime, ctr')
      ∧ (getCommitH polynomialPrime : Option (List Pt)).isSome = true
      ∧ CreateSharesGen Pt rand nodes secret threshold = some r
      ∧ r.err = none
      ∧ r.shares.length = nodes.length ∧ r.sharesPrime.length = nodes.length
      ∧ (r.pubPoly.length : Int) = threshold ∧ (r.Ci.length : Int) = threshold
      ∧ ∀ i : Nat, (i : Int) < threshold →
          ∃ a b pub, polynomial.Coeff[i]? = some a ∧ polynomialPrime.Coeff[i]? = some b
            ∧ r.pubPoly[i]? = some pub ∧ pub = a • (CurveLib.G : Pt)
            ∧ r.Ci[i]? = some (pub + b • (CurveLib.H : Pt)) := by
  obtain ⟨hg1, hg2⟩ := generateRandomZeroPolynomial_eq rand secret threshold h
  have hm := mainCoeff_length rand secret threshold h
  have hb := blindCoeff_length rand threshold h
  refine ⟨_, _, _, _, _, hg1, hg2, ?_, CreateSharesGen_eq rand nodes secret threshold h, rfl,
    by simp [getShares], by simp [getShares], by simpa using hm, ?_, ?_⟩
  · rw [@getCommitH_eq Pt _ ⟨blindCoeff rand threshold, threshold⟩ hb.symm]
    rfl
  · simp only [List.length_zipWith]
    omega
  · intro i hi
    have hi1 : i < (mainCoeff rand secret threshold).length := by omega
    have hi2 : i < (blindCoeff rand threshold).length := by omega
    refine ⟨(mainCoeff rand secret threshold)[i], (blindCoeff rand threshold)[i],
      (mainCoeff rand secret threshold)[i] • (CurveLib.G : Pt),
      List.getElem?_eq_getElem hi1, List.getElem?_eq_getElem hi2, ?_, rfl, ?_⟩
    · simp [List.getElem?_eq_getElem hi1]
    · simp [List.getElem?_zipWith, List.getElem?_eq_getElem hi1, List.getElem?_eq_getElem hi2]

/-- Witness for C15 on the 13-point curve: two nodes, secret 5, threshold 2. -/
theorem CreateSharesGen_shape_witness :
    ∃ r, CreateSharesGen (ZMod 13) (fun k => k + 2) [⟨1⟩, ⟨2⟩] 5 2 = some r
      ∧ r.err = none ∧ r.shares.length = 2 ∧ r.sharesPrime.length = 2
      ∧ r.pubPoly.length = 2 ∧ r.Ci.length = 2 := by
  obtain ⟨_, _, _, _, r, _, _, _, hr, he, h1, h2, h3, h4, _⟩ :=
    @CreateSharesGen_shape (ZMod 13) _ (fun k => k + 2) [⟨1⟩, ⟨2⟩] 5 2 (by decide)
  exact ⟨r, hr, he, h1, h2, by exact_mod_cast h3, by exact_mod_cast h4⟩

/-- Opposite points have the same X-coordinate. -/
theorem X_neg {Pt : Type} [CurveLib Pt] (P : Pt) : CurveLib.X (-P) = CurveLib.X P :=
  (CurveLib.X_eq_iff (-P) P).2 (Or.inr rfl)

/-- The scalar `order - v` gives the opposite of the point `v • G`. -/
theorem sub_nsmul_G {Pt : Type} [CurveLib Pt] (v : Nat) (hv : v ≤ CurveLib.GeneratorOrder Pt) :
    (CurveLib.GeneratorOrder Pt - v) • (CurveLib.G : Pt) = -(v • (CurveLib.G : Pt)) := by
  rw [eq_neg_iff_add_eq_zero, ← add_nsmul, Nat.sub_add_cancel hv]
  exact order_nsmul_G

/-- C18: `VerifyShare` gives the same answer for a share of value `v`, `0 < v < groupOrder`, and
for a share of value `groupOrder - v`, and `VerifyShareCommitment` gives the same answer for a
point `P` and for `-P`, for every commitment vector and index: only X-coordinates are
compared. -/
theorem VerifyShare_negation {Pt : Type} [CurveLib Pt] (share share' : PrimaryShare)
    (pubPoly : List Pt) (index : Nat) (P : Pt)
    (h0 : 0 < share.Value) (hN : share.Value < CurveLib.GeneratorOrder Pt)
    (hneg : share'.Value = CurveLib.GeneratorOrder Pt - share.Value) :
    VerifyShare share pubPoly index = VerifyShare share' pubPoly index
      ∧ VerifyShareCommitment P pubPoly index = VerifyShareCommitment (-P) pubPoly index := by
  have _ := h0
  constructor
  · simp only [VerifyShare, hneg]
    rw [sub_nsmul_G share.Value (Nat.le_of_lt hN), X_neg]
  · simp only [VerifyShareCommitment, X_neg]

/-- Witness for C18 on the 13-point curve: the values 4 and 9 = 13 - 4 against the commitment
vector `[4 • G, 3 • G]` at index 0, where both are accepted. -/
theorem VerifyShare_negation_witness :
    (VerifyShare ⟨0, 4⟩ [(4 : Nat) • (CurveLib.G : ZMod 13), (3 : Nat) • (CurveLib.G : ZMod 13)] 0
        = VerifyShare ⟨0, 9⟩
            [(4 : Nat) • (CurveLib.G : ZMod 13), (3 : Nat) • (CurveLib.G : ZMod 13)] 0
      ∧ VerifyShareCommitment (2 : ZMod 13)
          [(4 : Nat) • (CurveLib.G : ZMod 13), (3 : Nat) • (CurveLib.G : ZMod 13)] 0
        = VerifyShareCommitment (-(2 : ZMod 13))
            [(4 : Nat) • (CurveLib.G : ZMod 13), (3 : Nat) • (CurveLib.G : ZMod 13)] 0)
    ∧ VerifyShare ⟨0, 9⟩
        [(4 : Nat) • (CurveLib.G : ZMod 13), (3 : Nat) • (CurveLib.G : ZMod 13)] 0 = true :=
  ⟨VerifyShare_negation ⟨0, 4⟩ ⟨0, 9⟩ _ 0 2 (by decide) (by decide) (by decide), by decide⟩

/-- At index 0 the terms after the first leave the accumulator of `VerifyShare` unchanged. -/
theorem VerifyShare.rhs_index_zero {Pt : Type} [CurveLib Pt] (cs : List Pt) (i : Nat) (acc : Pt) :
    VerifyShare.rhs 0 cs (i + 1) acc = acc := by
  induction cs generalizing i acc with
  | nil => rfl
  | cons c cs ih =>
    rw [VerifyShare.rhs, ih]
    simp

/-- C20: at index 0 `VerifyShare` checks the constant-term commitment only: for a commitment
vector with first entry `c`, `VerifyShare(share, pubPoly, 0)` returns true exactly when the
X-coordinate of `G^{share.Value}` equals the X-coordinate of `c`; `0^0 mod groupOrder` is 1 and
`0^i mod groupOrder` is 0 for `i ≥ 1`. -/
theorem VerifyShare_index_zero {Pt : Type} [CurveLib Pt] (share : PrimaryShare) (c : Pt)
    (cs : List Pt) :
    (VerifyShare share (c :: cs) 0 = true
        ↔ CurveLib.X (share.Value • (CurveLib.G : Pt)) = CurveLib.X c)
      ∧ 0 ^ 0 % CurveLib.GeneratorOrder Pt = 1
      ∧ ∀ i : Nat, 1 ≤ i → 0 ^ i % CurveLib.GeneratorOrder Pt = 0 := by
  have hone : 1 % CurveLib.GeneratorOrder Pt = 1 :=
    Nat.mod_eq_of_lt (@CurveLib.GeneratorOrder_prime Pt _).one_lt
  refine ⟨?_, by simpa using hone, ?_⟩
  · simp only [VerifyShare, VerifyShare.rhs, pow_zero, hone, one_nsmul, zero_add]
    rw [VerifyShare.rhs_index_zero]
    simp
  · intro i hi
    rw [Nat.zero_pow (by omega)]
    simp

end pvss

/-! ## Properties of package `dkgnode` -/

namespace dkgnode

section lemmas

theorem validCommonSignatures_length (h : ShareRequestHandler)
    (validSignatures : List ValidatedNodeSignature) (s : String) :
    (h.validCommonSignatures validSignatures s).length
      = validSignatures.countP (fun sig => decide (h.stringData sig = s)) := by
  simp [ShareRequestHandler.validCommonSignatures, List.countP_eq_length_filter]

/-- The validated signatures depend on the handler through `NodeValidation` only. -/
theorem validSignatures_congr (h h' : ShareRequestHandler)
    (hNV : h'.NodeValidation = h.NodeValidation) (sigs : List NodeSignature) :
    h'.validSignatures sigs = h.validSignatures sigs := by
  induction sigs with
  | nil => rfl
  | cons sig rest ih => simp only [ShareRequestHandler.validSignatures, hNV, ih]

/-- The transcript of a signature depends on the handler through `FromString` only. -/
theorem stringData_congr (h h' : ShareRequestHandler) (hFS : h'.FromString = h.FromString)
    (sig : ValidatedNodeSignature) : h'.stringData sig = h.stringData sig := by
  simp only [ShareRequestHandler.stringData, hFS]

/-- The grouping map depends on the handler through `FromString` only. -/
theorem commonDataMap_congr (h h' : ShareRequestHandler) (hFS : h'.FromString = h.FromString)
    (sigs : List ValidatedNodeSignature) (m : List (String × Int)) :
    h'.commonDataMap sigs m = h.commonDataMap sigs m := by
  induction sigs generalizing m with
  | nil => rfl
  | cons sig rest ih =>
    simp only [ShareRequestHandler.commonDataMap, stringData_congr h h' hFS, ih]

/-- The selected transcript depends on the handler through `FromString` and the order in which
the map is visited only. -/
theorem commonDataString_congr (h h' : ShareRequestHandler) (hFS : h'.FromString = h.FromString)
    (hrO : h'.rangeOrder = h.rangeOrder) (sigs : List ValidatedNodeSignature) :
    h'.commonDataString sigs = h.commonDataString sigs := by
  simp only [ShareRequestHandler.commonDataString, hrO, commonDataMap_congr h h' hFS]

/-- The signatures on a transcript depend on the handler through `FromString` only. -/
theorem validCommonSignatures_congr (h h' : ShareRequestHandler)
    (hFS : h'.FromString = h.FromString) (sigs : List ValidatedNodeSignature) (s : String) :
    h'.validCommonSignatures sigs s = h.validCommonSignatures sigs s := by
  simp only [ShareRequestHandler.validCommonSignatures, stringData_congr h h' hFS]

/-- The outcome of a request on which no transcript is carried by `Threshold` validated
signatures. -/
theorem ShareRequestHandler.ServeJSONRPC_of_no_quorum (h : ShareRequestHandler)
    (params : String) (p : ShareRequestParams) (hU : h.Unmarshal params = .ok p)
    (hno : ∀ s : String, ((h.validSignatures p.NodeSignatures).countP
      (fun sig => decide (h.stringData sig = s)) : Int) < h.Threshold) :
    h.ServeJSONRPC params
      = if ((h.validSignatures p.NodeSignatures).length : Int) < h.Threshold then
          .error ⟨32602, "Internal error", some ("Not enough valid signatures. Only "
            ++ Itoa (h.validSignatures p.NodeSignatures).length ++ "valid signatures found.")⟩
        else
          .error ⟨32602, "Internal error",
            some ("Not enough valid signatures on the same data, "
              ++ Itoa (h.validCommonSignatures (h.validSignatures p.NodeSignatures)
                  (h.commonDataString (h.validSignatures p.NodeSignatures))).length
              ++ " valid signatures.")⟩ := by
  have hc := hno (h.commonDataString (h.validSignatures p.NodeSignatures))
  rw [← validCommonSignatures_length] at hc
  simp only [ShareRequestHandler.ServeJSONRPC, hU, hc, if_true]

/-- When every count is positive the selection loop, started with the count 0, ends with the
key of the last entry visited. -/
theorem selectCommon_last (entries : List (String × Int)) (s : String)
    (hpos : ∀ e ∈ entries, 0 < e.2) :
    selectCommon entries s 0 = ((entries.getLast?.map Prod.fst).getD s, 0) := by
  induction entries generalizing s with
  | nil => simp [selectCommon]
  | cons e rest ih =>
    obtain ⟨k, v⟩ := e
    have hv : v > 0 := hpos (k, v) (List.mem_cons_self _ _)
    have hrest : ∀ e ∈ rest, 0 < e.2 := fun e he => hpos e (List.mem_cons_of_mem _ he)
    simp only [selectCommon, hv, if_true]
    rw [ih k hrest]
    cases rest with
    | nil => simp
    | cons e' rest' =>
      rw [List.getLast?_cons_cons, List.getLast?_eq_getLast _ (List.cons_ne_nil _ _)]
      simp

/-- A request that passes every check before the identity verification is answered by the
identity verification and the share lookup. -/
theorem ShareRequestHandler.ServeJSONRPC_of_checks (h : ShareRequestHandler) (params : String)
    (p : ShareRequestParams) (tc ts vi : String) (verifier : Verifier) (sec : Int)
    (hU : h.Unmarshal params = .ok p)
    (hq1 : ¬ ((h.validSignatures p.NodeSignatures).length : Int) < h.Threshold)
    (hq2 : ¬ ((h.validCommonSignatures (h.validSignatures p.NodeSignatures)
      (h.commonDataString (h.validSignatures p.NodeSignatures))).length : Int) < h.Threshold)
    (h1 : (Split (h.commonDataString (h.validSignatures p.NodeSignatures)) '|')[1]? = some tc)
    (h2 : (Split (h.commonDataString (h.validSignatures p.NodeSignatures)) '|')[2]? = some ts)
    (h3 : (Split (h.commonDataString (h.validSignatures p.NodeSignatures)) '|')[3]? = some vi)
    (hL : h.Lookup vi = .ok verifier)
    (hK : h.Keccak256Hex (verifier.CleanToken p.Token) = tc)
    (hP : ParseInt ts = some sec)
    (hE : h.TimeNow.After (Time.Unix (wrapInt64 (sec + 60))) = false) :
    h.ServeJSONRPC params = h.verifyAndLookup params p := by
  simp only [ShareRequestHandler.ServeJSONRPC, hU, hq1, hq2, if_false, h1, h2, h3, hL, hK, hP, hE,
    ne_eq, not_true_eq_false, Bool.false_eq_true]

/-- On a request with the right prefix and a timestamp that parses and has not expired, the
commitment handler is decided by the replay cache of the verifier identifier. -/
theorem CommitmentRequestHandler.ServeJSONRPC_of_fresh (h : CommitmentRequestHandler)
    (caches : TokenCaches) (params : String) (p : CommitmentRequestParams) (sec : Int)
    (hU : h.Unmarshal params = .ok p) (hpre : p.MessagePrefix = "mug00")
    (hP : ParseInt p.Timestamp = some sec)
    (hE : h.TimeNow.After (Time.Unix (wrapInt64 (sec + 60))) = false)
    (hfresh : ∀ c, caches p.VerifierIdentifier = some c →
      c.Get h.cacheGetNow p.TokenCommitment = none) :
    (∃ res, (h.ServeJSONRPC caches params).1 = .result res)
    ∧ (h.ServeJSONRPC caches params).2 p.VerifierIdentifier
        = some (((caches p.VerifierIdentifier).getD Cache.New).Set h.cacheSetNow
            p.TokenCommitment true (1 * Minute)) := by
  cases hc : caches p.VerifierIdentifier with
  | none =>
    simp [CommitmentRequestHandler.ServeJSONRPC, hU, hpre, hP, hE, hc, Cache.Get, Cache.New]
  | some c =>
    have hg := hfresh c hc
    simp [CommitmentRequestHandler.ServeJSONRPC, hU, hpre, hP, hE, hc, hg]

/-- On a request with the right prefix and a timestamp that parses and has not expired, a
live entry of the replay cache makes the commitment handler answer `Duplicate token found`
and leave the caches as they were. -/
theorem CommitmentRequestHandler.ServeJSONRPC_of_live (h : CommitmentRequestHandler)
    (caches : TokenCaches) (params : String) (p : CommitmentRequestParams) (sec : Int)
    (c : Cache) (b : Bool)
    (hU : h.Unmarshal params = .ok p) (hpre : p.MessagePrefix = "mug00")
    (hP : ParseInt p.Timestamp = some sec)
    (hE : h.TimeNow.After (Time.Unix (wrapInt64 (sec + 60))) = false)
    (hc : caches p.VerifierIdentifier = some c)
    (hlive : c.Get h.cacheGetNow p.TokenCommitment = some b) :
    h.ServeJSONRPC caches params
      = (.error ⟨32603, "Internal error", some "Duplicate token found"⟩, caches) := by
  simp [CommitmentRequestHandler.ServeJSONRPC, hU, hpre, hP, hE, hc, hlive]

/-- Reading an entry back: it is found until its expiry and not after. -/
theorem Cache.Get_Set (c : Cache) (setNow getNow : Nat) (k : String) :
    (c.Set setNow k true (1 * Minute)).Get getNow k
      = if getNow > setNow + 1 * Minute then none else some true := by
  simp [Cache.Get, Cache.Set, Minute]

/-- The comparison made by the timestamp check, for a timestamp whose deadline is
representable: the clock is after the deadline exactly when it reads more than 60 seconds
after the timestamp. -/
theorem Time.After_deadline (now : Time) (ts : Int) (hlo : -2 ^ 63 ≤ ts)
    (hhi : ts + 60 + unixToInternal < 2 ^ 63) :
    now.After (Time.Unix (wrapInt64 (ts + 60))) = true
      ↔ ts + 60 < now.sec - unixToInternal
        ∨ (now.sec - unixToInternal = ts + 60 ∧ 0 < now.nsec) := by
  have hu : unixToInternal = 62135596800 := rfl
  have h1 : wrapInt64 (ts + 60) = ts + 60 := by
    unfold wrapInt64; omega
  have h2 : wrapInt64 (ts + 60 + unixToInternal) = ts + 60 + unixToInternal := by
    unfold wrapInt64; omega
  simp only [Time.After, Time.Unix, h1, h2, Bool.or_eq_true, Bool.and_eq_true,
    decide_eq_true_eq]
  constructor
  · rintro (h | ⟨h, h'⟩)
    · left; omega
    · right; exact ⟨by omega, h'⟩
  · rintro (h | ⟨h, h'⟩)
    · left; omega
    · right; exact ⟨by omega, h'⟩

end lemmas

/-- C1, the code at a failing input: three validated signatures, two on the transcript
`mug00|h(a)|100|google` and one on `mug00|h(b)|100|google`, the map visited in the order the
keys were inserted. The transcript selected is the one with a single signature. -/
theorem commonDataString_not_largest :
    (sampleShareHandler 1 (unixTime 100 0) (true, none) ⟨"id", "a", []⟩).commonDataString
        [⟨sampleSignature "h(a)" "100", 1⟩, ⟨sampleSignature "h(a)" "100", 2⟩,
          ⟨sampleSignature "h(b)" "100", 3⟩]
      = "mug00|h(b)|100|google"
    ∧ (sampleShareHandler 1 (unixTime 100 0) (true, none) ⟨"id", "a", []⟩).commonDataMap
        [⟨sampleSignature "h(a)" "100", 1⟩, ⟨sampleSignature "h(a)" "100", 2⟩,
          ⟨sampleSignature "h(b)" "100", 3⟩] []
      = [("mug00|h(a)|100|google", 2), ("mug00|h(b)|100|google", 1)] := by
  decide

/-- C2, the code at a failing input: threshold 3, three valid signatures on the transcript
`mug00|h(a)|100|google` and one on another transcript, the map visited in the order the keys
were inserted. The request is rejected for a lack of signatures on the same data. -/
theorem ShareRequest_quorum_rejected :
    (sampleShareHandler 3 (unixTime 100 0) (true, none)
        ⟨"id", "a", [sampleSignature "h(a)" "100", sampleSignature "h(a)" "100",
          sampleSignature "h(a)" "100", sampleSignature "h(b)" "100"]⟩).ServeJSONRPC ""
      = .error ⟨32602, "Internal error",
          some "Not enough valid signatures on the same data, 1 valid signatures."⟩ := by
  decide

/-- C3: when no transcript is carried by `Threshold` validated signatures the handler returns
one of the two quorum errors and no share, and the same outcome is returned by every handler
that differs only in the token verifier lookup, the hash, the clock, the identity verifier and
the share store (none of these checks is consulted); when both quorum checks pass, and
whenever a share is returned, at least `Threshold` validated signatures carry the selected
transcript. -/
theorem ShareRequest_quorum_gate (h : ShareRequestHandler) (params : String)
    (p : ShareRequestParams) (hU : h.Unmarshal params = .ok p) :
    ((∀ s : String, ((h.validSignatures p.NodeSignatures).countP
          (fun sig => decide (h.stringData sig = s)) : Int) < h.Threshold) →
        (h.ServeJSONRPC params
          = if ((h.validSignatures p.NodeSignatures).length : Int) < h.Threshold then
              .error ⟨32602, "Internal error", some ("Not enough valid signatures. Only "
                ++ Itoa (h.validSignatures p.NodeSignatures).length ++ "valid signatures found.")⟩
            else
              .error ⟨32602, "Internal error",
                some ("Not enough valid signatures on the same data, "
                  ++ Itoa (h.validCommonSignatures (h.validSignatures p.NodeSignatures)
                      (h.commonDataString (h.validSignatures p.NodeSignatures))).length
                  ++ " valid signatures.")⟩)
        ∧ ∀ h' : ShareRequestHandler, h'.Threshold = h.Threshold → h'.Unmarshal = h.Unmarshal →
            h'.NodeValidation = h.NodeValidation → h'.FromString = h.FromString →
            h'.rangeOrder = h.rangeOrder → h'.ServeJSONRPC params = h.ServeJSONRPC params)
    ∧ (¬ ((h.validSignatures p.NodeSignatures).length : Int) < h.Threshold →
        ¬ ((h.validCommonSignatures (h.validSignatures p.NodeSignatures)
          (h.commonDataString (h.validSignatures p.NodeSignatures))).length : Int) < h.Threshold →
        h.Threshold ≤ ((h.validSignatures p.NodeSignatures).countP
          (fun sig => decide (h.stringData sig
            = h.commonDataString (h.validSignatures p.NodeSignatures))) : Int))
    ∧ (∀ res, h.ServeJSONRPC params = .result res →
        h.Threshold ≤ ((h.validSignatures p.NodeSignatures).countP
          (fun sig => decide (h.stringData sig
            = h.commonDataString (h.validSignatures p.NodeSignatures))) : Int)) := by
  refine ⟨?_, ?_, ?_⟩
  · intro hno
    refine ⟨ShareRequestHandler.ServeJSONRPC_of_no_quorum h params p hU hno, ?_⟩
    intro h' hT hUn hNV hFS hrO
    have hU' : h'.Unmarshal params = .ok p := by rw [hUn]; exact hU
    have hno' : ∀ s : String, ((h'.validSignatures p.NodeSignatures).countP
        (fun sig => decide (h'.stringData sig = s)) : Int) < h'.Threshold := by
      intro s
      rw [validSignatures_congr h h' hNV, hT]
      simp only [stringData_congr h h' hFS]
      exact hno s
    rw [ShareRequestHandler.ServeJSONRPC_of_no_quorum h params p hU hno,
      ShareRequestHandler.ServeJSONRPC_of_no_quorum h' params p hU' hno',
      validSignatures_congr h h' hNV, hT, commonDataString_congr h h' hFS hrO,
      validCommonSignatures_congr h h' hFS]
  · intro _ hq2
    rw [← validCommonSignatures_length]
    omega
  · intro res hres
    rw [← validCommonSignatures_length]
    by_contra hlt
    have hlt' : ((h.validCommonSignatures (h.validSignatures p.NodeSignatures)
        (h.commonDataString (h.validSignatures p.NodeSignatures))).length : Int)
          < h.Threshold := by omega
    simp only [ShareRequestHandler.ServeJSONRPC, hU, hlt', if_true] at hres
    split at hres <;> cases hres

/-- Witness for C3: threshold 3, two valid signatures on one transcript and one on another;
the request is rejected for a lack of signatures on the same data. -/
theorem ShareRequest_quorum_gate_witness :
    (sampleShareHandler 3 (unixTime 100 0) (true, none)
        ⟨"id", "a", [sampleSignature "h(a)" "100", sampleSignature "h(a)" "100",
          sampleSignature "h(b)" "100"]⟩).ServeJSONRPC ""
      = .error ⟨32602, "Internal error",
          some "Not enough valid signatures on the same data, 1 valid signatures."⟩ :=
  ((ShareRequest_quorum_gate
      (sampleShareHandler 3 (unixTime 100 0) (true, none)
        ⟨"id", "a", [sampleSignature "h(a)" "100", sampleSignature "h(a)" "100",
          sampleSignature "h(b)" "100"]⟩) ""
      ⟨"id", "a", [sampleSignature "h(a)" "100", sampleSignature "h(a)" "100",
          sampleSignature "h(b)" "100"]⟩ rfl).1 (by
        intro s
        by_cases ha : s = "mug00|h(a)|100|google"
        · subst ha; decide
        · by_cases hb : s = "mug00|h(b)|100|google"
          · subst hb; decide
          · have e : (sampleShareHandler 3 (unixTime 100 0) (true, none)
                ⟨"id", "a", [sampleSignature "h(a)" "100", sampleSignature "h(a)" "100",
                  sampleSignature "h(b)" "100"]⟩).validSignatures
                [sampleSignature "h(a)" "100", sampleSignature "h(a)" "100",
                  sampleSignature "h(b)" "100"]
                = [⟨sampleSignature "h(a)" "100", 1⟩, ⟨sampleSignature "h(a)" "100", 1⟩,
                    ⟨sampleSignature "h(b)" "100", 1⟩] := by decide
            have ea : (sampleShareHandler 3 (unixTime 100 0) (true, none)
                ⟨"id", "a", [sampleSignature "h(a)" "100", sampleSignature "h(a)" "100",
                  sampleSignature "h(b)" "100"]⟩).stringData ⟨sampleSignature "h(a)" "100", 1⟩
                = "mug00|h(a)|100|google" := by decide
            have eb : (sampleShareHandler 3 (unixTime 100 0) (true, none)
                ⟨"id", "a", [sampleSignature "h(a)" "100", sampleSignature "h(a)" "100",
                  sampleSignature "h(b)" "100"]⟩).stringData ⟨sampleSignature "h(b)" "100", 1⟩
                = "mug00|h(b)|100|google" := by decide
            simp only [e, List.countP_cons, List.countP_nil, ea, eb]
            simp [Ne.symm ha, Ne.symm hb, sampleShareHandler])).1.trans (by decide)

/-- C4, the code where the identity verifier fails: for a request that passes the signature,
quorum, token-commitment and timestamp checks, a verifier that returns false with a nil error
makes the handler panic (it calls `err.Error()` on the nil error); a verifier that returns an
error gives the JSON-RPC error `Invalid params`. -/
theorem ShareRequest_identity_failure (h : ShareRequestHandler) (params : String)
    (p : ShareRequestParams) (tc ts vi : String) (verifier : Verifier) (sec : Int)
    (hU : h.Unmarshal params = .ok p)
    (hq1 : ¬ ((h.validSignatures p.NodeSignatures).length : Int) < h.Threshold)
    (hq2 : ¬ ((h.validCommonSignatures (h.validSignatures p.NodeSignatures)
      (h.commonDataString (h.validSignatures p.NodeSignatures))).length : Int) < h.Threshold)
    (h1 : (Split (h.commonDataString (h.validSignatures p.NodeSignatures)) '|')[1]? = some tc)
    (h2 : (Split (h.commonDataString (h.validSignatures p.NodeSignatures)) '|')[2]? = some ts)
    (h3 : (Split (h.commonDataString (h.validSignatures p.NodeSignatures)) '|')[3]? = some vi)
    (hL : h.Lookup vi = .ok verifier)
    (hK : h.Keccak256Hex (verifier.CleanToken p.Token) = tc)
    (hP : ParseInt ts = some sec)
    (hE : h.TimeNow.After (Time.Unix (wrapInt64 (sec + 60))) = false) :
    (h.Verify params = (false, none) → h.ServeJSONRPC params = .panic)
    ∧ (∀ b e, h.Verify params = (b, some e) →
        h.ServeJSONRPC params
          = .error ⟨32602, "Invalid params", some ("oauth is invalid, err: " ++ e)⟩) := by
  rw [ShareRequestHandler.ServeJSONRPC_of_checks h params p tc ts vi verifier sec hU hq1 hq2 h1 h2
    h3 hL hK hP hE]
  constructor
  · intro hV
    simp only [ShareRequestHandler.verifyAndLookup, hV]
  · intro b e hV
    simp only [ShareRequestHandler.verifyAndLookup, hV]

/-- Witness for C4: threshold 1, one valid signature on the transcript of the token `a`,
timestamp 100 on a clock that reads 100, and an identity verifier that returns false with a nil
error: the handler panics. -/
theorem ShareRequest_identity_failure_witness :
    (sampleShareHandler 1 (unixTime 100 0) (false, none)
        ⟨"id", "a", [sampleSignature "h(a)" "100"]⟩).ServeJSONRPC "" = .panic :=
  (ShareRequest_identity_failure
    (sampleShareHandler 1 (unixTime 100 0) (false, none)
      ⟨"id", "a", [sampleSignature "h(a)" "100"]⟩) ""
    ⟨"id", "a", [sampleSignature "h(a)" "100"]⟩ "h(a)" "100" "google" ⟨fun token => token⟩ 100
    rfl (by decide) (by decide) (by decide) (by decide) (by decide) rfl (by decide) (by decide)
    (by decide)).1 rfl

/-- C9: of three calls of `CommitmentRequest` with the same token commitment and verifier
identifier, each with the right prefix and an unexpired timestamp, the first made when the
replay cache has no live entry for the commitment, the second at most one minute after the
first stored its entry and the third after that entry has expired: the first returns a result,
the second is rejected with `Duplicate token found`, the third returns a result. -/
theorem CommitmentRequest_replay (h₁ h₂ h₃ : CommitmentRequestHandler) (caches : TokenCaches)
    (params₁ params₂ params₃ : String) (p₁ p₂ p₃ : CommitmentRequestParams)
    (sec₁ sec₂ sec₃ : Int)
    (hU₁ : h₁.Unmarshal params₁ = .ok p₁) (hU₂ : h₂.Unmarshal params₂ = .ok p₂)
    (hU₃ : h₃.Unmarshal params₃ = .ok p₃)
    (hpre₁ : p₁.MessagePrefix = "mug00") (hpre₂ : p₂.MessagePrefix = "mug00")
    (hpre₃ : p₃.MessagePrefix = "mug00")
    (hP₁ : ParseInt p₁.Timestamp = some sec₁) (hP₂ : ParseInt p₂.Timestamp = some sec₂)
    (hP₃ : ParseInt p₃.Timestamp = some sec₃)
    (hE₁ : h₁.TimeNow.After (Time.Unix (wrapInt64 (sec₁ + 60))) = false)
    (hE₂ : h₂.TimeNow.After (Time.Unix (wrapInt64 (sec₂ + 60))) = false)
    (hE₃ : h₃.TimeNow.After (Time.Unix (wrapInt64 (sec₃ + 60))) = false)
    (htc₂ : p₂.TokenCommitment = p₁.TokenCommitment)
    (hv₂ : p₂.VerifierIdentifier = p₁.VerifierIdentifier)
    (htc₃ : p₃.TokenCommitment = p₁.TokenCommitment)
    (hv₃ : p₃.VerifierIdentifier = p₁.VerifierIdentifier)
    (hfresh : ∀ c, caches p₁.VerifierIdentifier = some c →
      c.Get h₁.cacheGetNow p₁.TokenCommitment = none)
    (hwithin : h₂.cacheGetNow ≤ h₁.cacheSetNow + 1 * Minute)
    (hafter : h₁.cacheSetNow + 1 * Minute < h₃.cacheGetNow) :
    (∃ res, (h₁.ServeJSONRPC caches params₁).1 = .result res)
    ∧ (h₂.ServeJSONRPC (h₁.ServeJSONRPC caches params₁).2 params₂).1
        = .error ⟨32603, "Internal error", some "Duplicate token found"⟩
    ∧ (∃ res, (h₃.ServeJSONRPC
        (h₂.ServeJSONRPC (h₁.ServeJSONRPC caches params₁).2 params₂).2 params₃).1
          = .result res) := by
  obtain ⟨hres₁, hst₁⟩ := CommitmentRequestHandler.ServeJSONRPC_of_fresh h₁ caches params₁ p₁ sec₁
    hU₁ hpre₁ hP₁ hE₁ hfresh
  have hlive : (((caches p₁.VerifierIdentifier).getD Cache.New).Set h₁.cacheSetNow
      p₁.TokenCommitment true (1 * Minute)).Get h₂.cacheGetNow p₂.TokenCommitment
        = some true := by
    rw [htc₂, Cache.Get_Set, if_neg (by omega)]
  have h2 := CommitmentRequestHandler.ServeJSONRPC_of_live h₂
    (h₁.ServeJSONRPC caches params₁).2 params₂ p₂ sec₂ _ true hU₂ hpre₂ hP₂ hE₂
    (by rw [hv₂]; exact hst₁) hlive
  refine ⟨hres₁, by rw [h2], ?_⟩
  rw [h2]
  refine (CommitmentRequestHandler.ServeJSONRPC_of_fresh h₃ _ params₃ p₃ sec₃ hU₃ hpre₃ hP₃ hE₃
    ?_).1
  intro c hc
  rw [hv₃, hst₁] at hc
  cases hc
  rw [htc₃, Cache.Get_Set, if_pos (by omega)]

/-- Witness for C9: three calls for the commitment `h(a)` of the verifier `google`, on empty
caches, at 5 s, 30 s and 70 s of the cache's clock. -/
theorem CommitmentRequest_replay_witness :
    (∃ res, ((sampleCommitmentHandler (unixTime 100 0) 5000000000 5000000001
        ⟨"mug00", "h(a)", "x", "y", "100", "google"⟩).ServeJSONRPC (fun _ => none) "").1
          = .result res)
    ∧ ((sampleCommitmentHandler (unixTime 125 0) 30000000000 30000000001
        ⟨"mug00", "h(a)", "x", "y", "100", "google"⟩).ServeJSONRPC
          ((sampleCommitmentHandler (unixTime 100 0) 5000000000 5000000001
            ⟨"mug00", "h(a)", "x", "y", "100", "google"⟩).ServeJSONRPC (fun _ => none) "").2
          "").1
        = .error ⟨32603, "Internal error", some "Duplicate token found"⟩
    ∧ (∃ res, ((sampleCommitmentHandler (unixTime 165 0) 70000000000 70000000001
        ⟨"mug00", "h(a)", "x", "y", "160", "google"⟩).ServeJSONRPC
          ((sampleCommitmentHandler (unixTime 125 0) 30000000000 30000000001
            ⟨"mug00", "h(a)", "x", "y", "100", "google"⟩).ServeJSONRPC
              ((sampleCommitmentHandler (unixTime 100 0) 5000000000 5000000001
                ⟨"mug00", "h(a)", "x", "y", "100", "google"⟩).ServeJSONRPC
                  (fun _ => none) "").2 "").2 "").1
          = .result res) :=
  CommitmentRequest_replay
    (sampleCommitmentHandler (unixTime 100 0) 5000000000 5000000001
      ⟨"mug00", "h(a)", "x", "y", "100", "google"⟩)
    (sampleCommitmentHandler (unixTime 125 0) 30000000000 30000000001
      ⟨"mug00", "h(a)", "x", "y", "100", "google"⟩)
    (sampleCommitmentHandler (unixTime 165 0) 70000000000 70000000001
      ⟨"mug00", "h(a)", "x", "y", "160", "google"⟩)
    (fun _ => none) "" "" "" _ _ _ 100 100 160 rfl rfl rfl rfl rfl rfl
    (by decide) (by decide) (by decide) (by decide) (by decide) (by decide)
    rfl rfl rfl rfl (by intro c hc; cases hc) (by decide) (by decide)

/-- C10, the code at a failing input: the timestamp `9223372036854775807` parses as a 64-bit
integer and lies in the future of a clock that reads 100 s, yet `sec+60` wraps around and both
handlers reject the request with `Expired token (> 60 seconds)`. -/
theorem timestamp_check_wraps :
    ParseInt "9223372036854775807" = some 9223372036854775807
    ∧ ((sampleCommitmentHandler (unixTime 100 0) 5 6
        ⟨"mug00", "h(a)", "x", "y", "9223372036854775807", "google"⟩).ServeJSONRPC
          (fun _ => none) "").1
        = .error ⟨32603, "Internal error", some "Expired token (> 60 seconds)"⟩
    ∧ (sampleShareHandler 1 (unixTime 100 0) (true, none)
        ⟨"id", "a", [sampleSignature "h(a)" "9223372036854775807"]⟩).ServeJSONRPC ""
        = .error ⟨32603, "Internal error", some "Expired token (> 60 seconds)"⟩ := by
  decide

/-- The timestamp check of `CommitmentRequest` on a request with the right prefix: an
unparsable timestamp is rejected with `Could not parse timestamp`, and a timestamp `ts` whose
deadline `ts + 60` is representable is rejected with `Expired token (> 60 seconds)` exactly
when the clock reads more than 60 seconds after `ts`. -/
theorem CommitmentRequest_timestamp_check (h : CommitmentRequestHandler) (caches : TokenCaches)
    (params : String) (p : CommitmentRequestParams) (hU : h.Unmarshal params = .ok p)
    (hpre : p.MessagePrefix = "mug00") :
    (ParseInt p.Timestamp = none →
      (h.ServeJSONRPC caches params).1
        = .error ⟨32603, "Internal error", some "Could not parse timestamp"⟩)
    ∧ (∀ ts, ParseInt p.Timestamp = some ts → -2 ^ 63 ≤ ts → ts + 60 + unixToInternal < 2 ^ 63 →
        ((h.ServeJSONRPC caches params).1
            = .error ⟨32603, "Internal error", some "Expired token (> 60 seconds)"⟩
          ↔ ts + 60 < h.TimeNow.sec - unixToInternal
            ∨ (h.TimeNow.sec - unixToInternal = ts + 60 ∧ 0 < h.TimeNow.nsec))) := by
  constructor
  · intro hP
    simp [CommitmentRequestHandler.ServeJSONRPC, hU, hpre, hP]
  · intro ts hP hlo hhi
    rw [← Time.After_deadline h.TimeNow ts hlo hhi]
    by_cases hE : h.TimeNow.After (Time.Unix (wrapInt64 (ts + 60))) = true
    · simp [CommitmentRequestHandler.ServeJSONRPC, hU, hpre, hP, hE]
    · have hE' : h.TimeNow.After (Time.Unix (wrapInt64 (ts + 60))) = false := by
        simpa using hE
      simp only [CommitmentRequestHandler.ServeJSONRPC, hU, hpre, hP, hE', ne_eq,
        not_true_eq_false, if_false, iff_false, Bool.false_eq_true]
      split <;> simp

/-- The boundary of the timestamp check: on a clock that reads exactly 60 s after the
timestamp the request is accepted, at 61 s it is rejected. -/
theorem CommitmentRequest_timestamp_boundary :
    (∃ res, ((sampleCommitmentHandler (unixTime 160 0) 5 6
        ⟨"mug00", "h(a)", "x", "y", "100", "google"⟩).ServeJSONRPC (fun _ => none) "").1
          = .result res)
    ∧ ((sampleCommitmentHandler (unixTime 161 0) 5 6
        ⟨"mug00", "h(a)", "x", "y", "100", "google"⟩).ServeJSONRPC (fun _ => none) "").1
        = .error ⟨32603, "Internal error", some "Expired token (> 60 seconds)"⟩ :=
  ⟨⟨_, rfl⟩, by decide⟩

/-! ### The frame of `CommitmentRequest` and the transcript of `ShareRequest` -/

/-- C13: a `CommitmentRequest` that is rejected leaves the replay caches exactly as they were
(no cache is created, no entry is added or refreshed), and a request whose prefix is not
`mug00` is rejected. -/
theorem CommitmentRequest_rejected_frame (h : CommitmentRequestHandler) (caches : TokenCaches)
    (params : String) :
    (∀ err, (h.ServeJSONRPC caches params).1 = .error err →
        (h.ServeJSONRPC caches params).2 = caches)
    ∧ (∀ p, h.Unmarshal params = .ok p → p.MessagePrefix ≠ "mug00" →
        h.ServeJSONRPC caches params
          = (.error ⟨32603, "Internal error", some "Incorrect message prefix"⟩, caches)) := by
  constructor
  · intro err herr
    unfold CommitmentRequestHandler.ServeJSONRPC at herr ⊢
    cases hU : h.Unmarshal params with
    | error e => simp only [hU]
    | ok p =>
      simp only [hU] at herr ⊢
      by_cases hpre : p.MessagePrefix = "mug00"
      · simp only [hpre, ne_eq, not_true_eq_false, if_false] at herr ⊢
        cases hP : ParseInt p.Timestamp with
        | none => simp only [hP]
        | some sec =>
          simp only [hP] at herr ⊢
          by_cases hE : h.TimeNow.After (Time.Unix (wrapInt64 (sec + 60))) = true
          · simp only [hE, if_true]
          · simp only [hE, if_false, Bool.false_eq_true] at herr ⊢
            cases hc : caches p.VerifierIdentifier with
            | none =>
              simp [hc, Cache.Get, Cache.New] at herr
            | some c =>
              simp only [hc, Option.isNone_some, Bool.false_eq_true, if_false,
                Option.getD_some] at herr ⊢
              cases hG : c.Get h.cacheGetNow p.TokenCommitment with
              | none => simp [hG] at herr
              | some b => simp only [hG]
      · simp only [ne_eq, hpre, not_false_eq_true, if_true]
  · intro p hU hpre
    simp only [CommitmentRequestHandler.ServeJSONRPC, hU, ne_eq, hpre, not_false_eq_true, if_true]

/-- The number of pieces `splitAux` returns: one more than the number of separators. -/
theorem splitAux_length (sep : Char) (l cur : List Char) :
    (splitAux sep l cur).length = l.count sep + 1 := by
  induction l generalizing cur with
  | nil => simp [splitAux]
  | cons c cs ih =>
    by_cases hc : c = sep
    · subst hc
      simp [splitAux, ih]
    · have hne : (c == sep) = false := by simpa using hc
      simp [splitAux, hc, ih, List.count_cons, hne]

/-- The characters of the transcript of a validated signature. -/
theorem stringData_data (h : ShareRequestHandler) (sig : ValidatedNodeSignature) :
    (h.stringData sig).data
      = (h.FromString sig.Data).MessagePrefix.data ++ '|' ::
        ((h.FromString sig.Data).TokenCommitment.data ++ '|' ::
          ((h.FromString sig.Data).Timestamp.data ++ '|' ::
            (h.FromString sig.Data).VerifierIdentifier.data)) := by
  simp [ShareRequestHandler.stringData, String.data_append]

/-- The transcript of a validated signature has at least three separators. -/
theorem stringData_count (h : ShareRequestHandler) (sig : ValidatedNodeSignature) :
    3 ≤ (h.stringData sig).data.count '|' := by
  rw [stringData_data]
  simp only [List.count_append, List.count_cons_self]
  omega

/-- C19: when `Threshold ≥ 1` and the check on the signatures of the selected transcript
passes, the selected transcript has at least three separators and parts 1, 2 and 3 of its
split exist; when `Threshold ≤ 0`, no signature is valid and the empty map is visited as
empty, the selected transcript is the empty string and the handler panics on part 1. -/
theorem ShareRequest_split_in_range (h : ShareRequestHandler) (params : String)
    (p : ShareRequestParams) (hU : h.Unmarshal params = .ok p) :
    (1 ≤ h.Threshold →
      ¬ ((h.validCommonSignatures (h.validSignatures p.NodeSignatures)
        (h.commonDataString (h.validSignatures p.NodeSignatures))).length : Int) < h.Threshold →
      3 ≤ (h.commonDataString (h.validSignatures p.NodeSignatures)).data.count '|'
      ∧ ∃ a b c,
          (Split (h.commonDataString (h.validSignatures p.NodeSignatures)) '|')[1]? = some a
          ∧ (Split (h.commonDataString (h.validSignatures p.NodeSignatures)) '|')[2]? = some b
          ∧ (Split (h.commonDataString (h.validSignatures p.NodeSignatures)) '|')[3]? = some c)
    ∧ (h.Threshold ≤ 0 → h.validSignatures p.NodeSignatures = [] → h.rangeOrder [] = [] →
        h.commonDataString (h.validSignatures p.NodeSignatures) = ""
        ∧ h.ServeJSONRPC params = .panic) := by
  constructor
  · intro ht hq2
    have hpos : 0 < (h.validCommonSignatures (h.validSignatures p.NodeSignatures)
        (h.commonDataString (h.validSignatures p.NodeSignatures))).length := by omega
    obtain ⟨sig, hsig⟩ := List.exists_mem_of_length_pos hpos
    have hwin : h.stringData sig = h.commonDataString (h.validSignatures p.NodeSignatures) := by
      have := (List.mem_filter.1 hsig).2
      simpa using this
    have hcount := stringData_count h sig
    rw [hwin] at hcount
    have hlen : 4 ≤ (Split (h.commonDataString (h.validSignatures p.NodeSignatures)) '|').length := by
      simp only [Split, List.length_map, splitAux_length]
      omega
    exact ⟨hcount, _, _, _, List.getElem?_eq_getElem (by omega),
      List.getElem?_eq_getElem (by omega), List.getElem?_eq_getElem (by omega)⟩
  · intro ht hvalid hrange
    have hcds : h.commonDataString (h.validSignatures p.NodeSignatures) = "" := by
      simp [ShareRequestHandler.commonDataString, hvalid, ShareRequestHandler.commonDataMap,
        hrange, selectCommon]
    refine ⟨hcds, ?_⟩
    rw [hvalid] at hcds
    have h1 : ¬ (0 : Int) < h.Threshold := by omega
    have hsplit : Split "" '|' = [""] := by decide
    simp [ShareRequestHandler.ServeJSONRPC, hU, hvalid, hcds,
      ShareRequestHandler.validCommonSignatures, h1, hsplit]

/-- Witness for C19: threshold 1 and one valid signature, where parts 1, 2 and 3 exist. -/
theorem ShareRequest_split_in_range_witness :
    ∃ a b c,
      (Split ((sampleShareHandler 1 (unixTime 100 0) (true, none)
          ⟨"id", "a", [sampleSignature "h(a)" "100"]⟩).commonDataString
        ((sampleShareHandler 1 (unixTime 100 0) (true, none)
          ⟨"id", "a", [sampleSignature "h(a)" "100"]⟩).validSignatures
            [sampleSignature "h(a)" "100"])) '|')[1]? = some a
      ∧ (Split ((sampleShareHandler 1 (unixTime 100 0) (true, none)
          ⟨"id", "a", [sampleSignature "h(a)" "100"]⟩).commonDataString
        ((sampleShareHandler 1 (unixTime 100 0) (true, none)
          ⟨"id", "a", [sampleSignature "h(a)" "100"]⟩).validSignatures
            [sampleSignature "h(a)" "100"])) '|')[2]? = some b
      ∧ (Split ((sampleShareHandler 1 (unixTime 100 0) (true, none)
          ⟨"id", "a", [sampleSignature "h(a)" "100"]⟩).commonDataString
        ((sampleShareHandler 1 (unixTime 100 0) (true, none)
          ⟨"id", "a", [sampleSignature "h(a)" "100"]⟩).validSignatures
            [sampleSignature "h(a)" "100"])) '|')[3]? = some c :=
  ((ShareRequest_split_in_range
    (sampleShareHandler 1 (unixTime 100 0) (true, none)
      ⟨"id", "a", [sampleSignature "h(a)" "100"]⟩) ""
    ⟨"id", "a", [sampleSignature "h(a)" "100"]⟩ rfl).1 (by decide) (by decide)).2

/-- Splitting after a piece without separator: the piece is returned and the rest is split. -/
theorem splitAux_append_sep (sep : Char) (l₁ l₂ cur : List Char) (h : sep ∉ l₁) :
    splitAux sep (l₁ ++ sep :: l₂) cur = (cur.reverse ++ l₁) :: splitAux sep l₂ [] := by
  induction l₁ generalizing cur with
  | nil => simp [splitAux]
  | cons c cs ih =>
    have hc : c ≠ sep := fun e => h (e ▸ List.mem_cons_self _ _)
    have hcs : sep ∉ cs := fun e => h (List.mem_cons_of_mem _ e)
    simp [splitAux, hc, ih (c :: cur) hcs]

/-- Splitting a list without separator returns it whole. -/
theorem splitAux_no_sep (sep : Char) (l cur : List Char) (h : sep ∉ l) :
    splitAux sep l cur = [cur.reverse ++ l] := by
  induction l generalizing cur with
  | nil => simp [splitAux]
  | cons c cs ih =>
    have hc : c ≠ sep := fun e => h (e ▸ List.mem_cons_self _ _)
    have hcs : sep ∉ cs := fun e => h (List.mem_cons_of_mem _ e)
    simp [splitAux, hc, ih (c :: cur) hcs]

/-- No piece returned by `splitAux` contains the separator. -/
theorem splitAux_pieces (sep : Char) (l cur : List Char) (hcur : sep ∉ cur) :
    ∀ piece ∈ splitAux sep l cur, sep ∉ piece := by
  induction l generalizing cur with
  | nil =>
    intro piece hp
    simp only [splitAux, List.mem_singleton] at hp
    subst hp
    simpa using hcur
  | cons c cs ih =>
    intro piece hp
    by_cases hc : c = sep
    · simp only [splitAux, hc, if_true, List.mem_cons] at hp
      rcases hp with hp | hp
      · subst hp
        simpa using hcur
      · exact ih [] (by simp) piece hp
    · simp only [splitAux, hc, if_false] at hp
      refine ih (c :: cur) ?_ piece hp
      intro hm
      rcases List.mem_cons.1 hm with e | e
      · exact hc e.symm
      · exact hcur e

/-- The fields of a record read by `FromString` contain no separator. -/
theorem FromString_fields (data : String) :
    '|' ∉ (CommitmentRequestResultData.FromString data).MessagePrefix.data
    ∧ '|' ∉ (CommitmentRequestResultData.FromString data).TokenCommitment.data
    ∧ '|' ∉ (CommitmentRequestResultData.FromString data).Timestamp.data
    ∧ '|' ∉ (CommitmentRequestResultData.FromString data).VerifierIdentifier.data := by
  have hp : ∀ s ∈ Split data '|', '|' ∉ s.data := by
    intro s hs
    simp only [Split, List.mem_map] at hs
    obtain ⟨piece, hpiece, rfl⟩ := hs
    exact splitAux_pieces _ _ _ (by simp) piece hpiece
  unfold CommitmentRequestResultData.FromString
  split
  next a b c d e f g heq =>
    rw [heq] at hp
    exact ⟨hp a (by simp), hp b (by simp), hp e (by simp), hp f (by simp)⟩
  next => simp

/-- The split of the transcript of a signature whose fields contain no separator. -/
theorem Split_stringData (h : ShareRequestHandler) (sig : ValidatedNodeSignature)
    (h1 : '|' ∉ (h.FromString sig.Data).MessagePrefix.data)
    (h2 : '|' ∉ (h.FromString sig.Data).TokenCommitment.data)
    (h3 : '|' ∉ (h.FromString sig.Data).Timestamp.data)
    (h4 : '|' ∉ (h.FromString sig.Data).VerifierIdentifier.data) :
    Split (h.stringData sig) '|'
      = [(h.FromString sig.Data).MessagePrefix, (h.FromString sig.Data).TokenCommitment,
          (h.FromString sig.Data).Timestamp, (h.FromString sig.Data).VerifierIdentifier] := by
  simp only [Split]
  rw [stringData_data, splitAux_append_sep _ _ _ _ h1, splitAux_append_sep _ _ _ _ h2,
    splitAux_append_sep _ _ _ _ h3, splitAux_no_sep _ _ _ h4]
  simp

/-- C16: in `ShareRequestHandler.ServeJSONRPC`, on a request that passes both quorum checks,
for every record of the winning group whose four transcript fields are free of `|` (the fields
of a record of the `|`-joined canonical transcript): the parts 1, 2 and 3 the handler reads
from the split of the selected transcript are the record's `TokenCommitment`, `Timestamp` and
`VerifierIdentifier`, and the handler goes on with exactly these values: it looks up the
verifier of the record's `VerifierIdentifier`, compares the hash of the cleaned token with the
record's `TokenCommitment` and checks the record's `Timestamp`. -/
theorem ShareRequest_recovered_fields (h : ShareRequestHandler) (params : String)
    (p : ShareRequestParams) (sig : ValidatedNodeSignature)
    (hU : h.Unmarshal params = .ok p)
    (hq1 : ¬ ((h.validSignatures p.NodeSignatures).length : Int) < h.Threshold)
    (hq2 : ¬ ((h.validCommonSignatures (h.validSignatures p.NodeSignatures)
      (h.commonDataString (h.validSignatures p.NodeSignatures))).length : Int) < h.Threshold)
    (hmem : sig ∈ h.validCommonSignatures (h.validSignatures p.NodeSignatures)
      (h.commonDataString (h.validSignatures p.NodeSignatures)))
    (hsep : '|' ∉ (h.FromString sig.Data).MessagePrefix.data
      ∧ '|' ∉ (h.FromString sig.Data).TokenCommitment.data
      ∧ '|' ∉ (h.FromString sig.Data).Timestamp.data
      ∧ '|' ∉ (h.FromString sig.Data).VerifierIdentifier.data) :
    (Split (h.commonDataString (h.validSignatures p.NodeSignatures)) '|')[1]?
        = some (h.FromString sig.Data).TokenCommitment
    ∧ (Split (h.commonDataString (h.validSignatures p.NodeSignatures)) '|')[2]?
        = some (h.FromString sig.Data).Timestamp
    ∧ (Split (h.commonDataString (h.validSignatures p.NodeSignatures)) '|')[3]?
        = some (h.FromString sig.Data).VerifierIdentifier
    ∧ h.ServeJSONRPC params
        = (match h.Lookup (h.FromString sig.Data).VerifierIdentifier with
          | .error err => .error ⟨32603, "Internal error", some err⟩
          | .ok verifier =>
            if h.Keccak256Hex (verifier.CleanToken p.Token)
                ≠ (h.FromString sig.Data).TokenCommitment then
              .error ⟨32602, "Internal error",
                some "Token commitment and token are not compatible"⟩
            else
              match ParseInt (h.FromString sig.Data).Timestamp with
              | none => .error ⟨32603, "Internal error", some "Could not parse timestamp"⟩
              | some sec =>
                if h.TimeNow.After (Time.Unix (wrapInt64 (sec + 60))) then
                  .error ⟨32603, "Internal error", some "Expired token (> 60 seconds)"⟩
                else h.verifyAndLookup params p) := by
  have hwin : h.stringData sig
      = h.commonDataString (h.validSignatures p.NodeSignatures) := by
    have := (List.mem_filter.1 hmem).2
    simpa using this
  have hsplit := Split_stringData h sig hsep.1 hsep.2.1 hsep.2.2.1 hsep.2.2.2
  rw [hwin] at hsplit
  have e1 : (Split (h.commonDataString (h.validSignatures p.NodeSignatures)) '|')[1]?
      = some (h.FromString sig.Data).TokenCommitment := by rw [hsplit]; rfl
  have e2 : (Split (h.commonDataString (h.validSignatures p.NodeSignatures)) '|')[2]?
      = some (h.FromString sig.Data).Timestamp := by rw [hsplit]; rfl
  have e3 : (Split (h.commonDataString (h.validSignatures p.NodeSignatures)) '|')[3]?
      = some (h.FromString sig.Data).VerifierIdentifier := by rw [hsplit]; rfl
  refine ⟨e1, e2, e3, ?_⟩
  simp only [ShareRequestHandler.ServeJSONRPC, hU, hq1, hq2, if_false, e1, e2, e3]

/-- Witness for C16: threshold 1 and one valid signature on the transcript of the commitment
`h(a)` of the token `a`, timestamp 100 on a clock that reads 100: the handler recovers
`h(a)`, `100` and `google`, the three checks on them pass and the share is returned. -/
theorem ShareRequest_recovered_fields_witness :
    (Split ((sampleShareHandler 1 (unixTime 100 0) (true, none)
        ⟨"id", "a", [sampleSignature "h(a)" "100"]⟩).commonDataString
          [⟨sampleSignature "h(a)" "100", 1⟩]) '|')[1]? = some "h(a)"
    ∧ (Split ((sampleShareHandler 1 (unixTime 100 0) (true, none)
        ⟨"id", "a", [sampleSignature "h(a)" "100"]⟩).commonDataString
          [⟨sampleSignature "h(a)" "100", 1⟩]) '|')[2]? = some "100"
    ∧ (Split ((sampleShareHandler 1 (unixTime 100 0) (true, none)
        ⟨"id", "a", [sampleSignature "h(a)" "100"]⟩).commonDataString
          [⟨sampleSignature "h(a)" "100", 1⟩]) '|')[3]? = some "google"
    ∧ (sampleShareHandler 1 (unixTime 100 0) (true, none)
        ⟨"id", "a", [sampleSignature "h(a)" "100"]⟩).ServeJSONRPC "" = .result ⟨1, "7"⟩ := by
  have hw := ShareRequest_recovered_fields
    (sampleShareHandler 1 (unixTime 100 0) (true, none)
      ⟨"id", "a", [sampleSignature "h(a)" "100"]⟩) ""
    ⟨"id", "a", [sampleSignature "h(a)" "100"]⟩ ⟨sampleSignature "h(a)" "100", 1⟩ rfl
    (by decide) (by decide) (by decide) (by decide)
  exact ⟨hw.1, hw.2.1, hw.2.2.1, hw.2.2.2.trans (by decide)⟩

/-! ### `SecretAssign` -/

/-- Go `int(x)` leaves an index below `2^63` as it is. -/
theorem wrapInt64_of_lt (n : Nat) (hn : n < 2 ^ 63) : wrapInt64 n = n := by
  unfold wrapInt64
  omega

/-- The index a successful `respond` carries. -/
theorem SecretAssignHandler.respond_result (h : SecretAssignHandler) (params : String)
    (assignedIndex : Nat) (res : SecretAssignResult)
    (hres : h.respond params assignedIndex = .result res) :
    res.ShareIndex = wrapInt64 assignedIndex := by
  unfold SecretAssignHandler.respond at hres
  split at hres
  · cases hres
  · cases hres
  · split at hres
    · cases hres
    · split at hres
      · cases hres
      · split at hres
        · cases hres
        · simp only [Outcome.result.injEq] at hres
          rw [← hres]

/-- The loop returns an index only as the re-query made at a matching event gave it. -/
theorem SecretAssignHandler.wait_assigned (h : SecretAssignHandler) (email queryString : String)
    (events : List String) (assignedIndex : Nat)
    (hw : h.wait email queryString events = .assigned assignedIndex) :
    (∃ e ∈ events, h.eventQuery e = queryString)
    ∧ ∃ value, h.ABCIQuery "GetEmailIndex" email = .ok value ∧ value ≠ ""
        ∧ ParseUint value = some assignedIndex := by
  induction events with
  | nil => simp [SecretAssignHandler.wait] at hw
  | cons e es ih =>
    by_cases hq : h.eventQuery e = queryString
    · refine ⟨⟨e, List.mem_cons_self _ _, hq⟩, ?_⟩
      simp only [SecretAssignHandler.wait, hq, ne_eq, not_true_eq_false, if_false] at hw
      split at hw
      · cases hw
      · rename_i value hv
        by_cases hempty : value = ""
        · simp [hempty] at hw
        · simp only [hempty, if_false] at hw
          split at hw
          · cases hw
          · rename_i idx hp
            cases hw
            exact ⟨value, hv, hempty, hp⟩
    · simp only [SecretAssignHandler.wait, ne_eq, hq, not_false_eq_true, if_true] at hw
      obtain ⟨⟨e', he', hq'⟩, hrest⟩ := ih hw
      exact ⟨⟨e', List.mem_cons_of_mem _ he', hq'⟩, hrest⟩

/-- The loop does not use up events among which one matches. -/
theorem SecretAssignHandler.wait_ne_drained (h : SecretAssignHandler)
    (email queryString : String) (events : List String)
    (hm : ∃ e ∈ events, h.eventQuery e = queryString) :
    h.wait email queryString events ≠ .drained := by
  induction events with
  | nil => simp at hm
  | cons e es ih =>
    by_cases hq : h.eventQuery e = queryString
    · simp only [SecretAssignHandler.wait, hq, ne_eq, not_true_eq_false, if_false]
      split
      · simp
      · split
        · simp
        · split <;> simp
    · simp only [SecretAssignHandler.wait, ne_eq, hq, not_false_eq_true, if_true]
      apply ih
      obtain ⟨e', he', hq'⟩ := hm
      rcases List.mem_cons.1 he' with rfl | he'
      · exact absurd hq' hq
      · exact ⟨e', he', hq'⟩

/-- Every error returned from inside the loop has the code 32603. -/
theorem SecretAssignHandler.wait_failed_code (h : SecretAssignHandler)
    (email queryString : String) (events : List String) (err : Error)
    (hw : h.wait email queryString events = .failed err) : err.Code = 32603 := by
  induction events with
  | nil => simp [SecretAssignHandler.wait] at hw
  | cons ev evs ih =>
    unfold SecretAssignHandler.wait at hw
    split at hw
    · exact ih hw
    · split at hw
      · cases hw; rfl
      · split at hw
        · cases hw; rfl
        · split at hw
          · cases hw; rfl
          · cases hw

/-- C11, counterexample: the empty identifier, although present in the assignment map, is
answered with `Email is empty`; and the identifier `bob`, present in the map with an index
for which no key can be retrieved, is answered with an internal error. -/
theorem SecretAssign_assigned_counterexample :
    (sampleAssignHandler 100 0 ⟨[], true⟩ "").state.EmailMapping "" = some 4
    ∧ (sampleAssignHandler 100 0 ⟨[], true⟩ "").ServeJSONRPC ""
        = ⟨some (.error ⟨32602, "Input error", some "Email is empty"⟩), []⟩
    ∧ (sampleAssignHandler 100 0 ⟨[], true⟩ "bob").state.EmailMapping "bob" = some 50
    ∧ (sampleAssignHandler 100 0 ⟨[], true⟩ "bob").ServeJSONRPC ""
        = ⟨some (.error ⟨32603, "Internal error",
            some ("could not retrieve secret from previously assigned index, "
              ++ "please try again err, no share for the index")⟩), []⟩ := by
  decide

/-- C11, amended: for an identifier present in the assignment map `SecretAssign` performs no
`Broadcast`, whatever the capacity counters are. An empty identifier is answered with
`Email is empty`. For an identifier that is not empty: when `retrieveUserPubKey` fails for the
stored index the call returns the internal error `could not retrieve secret from previously
assigned index`; when it succeeds and `PointToEthAddress` fails the call returns the internal
error without data; when both succeed the call returns the stored index (converted to `int`,
which leaves an index below `2^63` unchanged) with the key and address derived from it. A
second call in an environment with the same mapping for the identifier and the same key and
address derivation does exactly what the first did. -/
theorem SecretAssign_already_assigned (h : SecretAssignHandler) (params : String)
    (p : SecretAssignParams) (index : Nat)
    (hU : h.Unmarshal params = .ok p) (hmap : h.state.EmailMapping p.Email = some index) :
    (h.ServeJSONRPC params).broadcasts = []
    ∧ (p.Email = "" →
        (h.ServeJSONRPC params).outcome
          = some (.error ⟨32602, "Input error", some "Email is empty"⟩))
    ∧ (p.Email ≠ "" → ∀ err, h.retrieveUserPubKey (wrapInt64 index) = .error err →
        (h.ServeJSONRPC params).outcome
          = some (.error ⟨32603, "Internal error",
              some ("could not retrieve secret from previously assigned index, "
                ++ "please try again err, " ++ err)⟩))
    ∧ (p.Email ≠ "" → ∀ key err, h.retrieveUserPubKey (wrapInt64 index) = .ok key →
        h.PointToEthAddress key = .error err →
        (h.ServeJSONRPC params).outcome = some (.error ⟨32603, "Internal error", none⟩))
    ∧ (p.Email ≠ "" → ∀ key addr, h.retrieveUserPubKey (wrapInt64 index) = .ok key →
        h.PointToEthAddress key = .ok addr →
        (h.ServeJSONRPC params).outcome
          = some (.result ⟨wrapInt64 index, h.Text16 key.X, h.Text16 key.Y, addr⟩))
    ∧ (index < 2 ^ 63 → wrapInt64 index = index)
    ∧ (∀ h' : SecretAssignHandler, h'.Unmarshal params = .ok p →
        h'.state.EmailMapping p.Email = some index →
        h'.retrieveUserPubKey = h.retrieveUserPubKey →
        h'.PointToEthAddress = h.PointToEthAddress → h'.Text16 = h.Text16 →
        h'.ServeJSONRPC params = h.ServeJSONRPC params) := by
  refine ⟨?_, ?_, ?_, ?_, ?_, wrapInt64_of_lt index, ?_⟩
  · simp only [SecretAssignHandler.ServeJSONRPC, hU, hmap]
    split
    · rfl
    · split
      · rfl
      · split <;> rfl
  · intro he
    simp only [SecretAssignHandler.ServeJSONRPC, hU, he, if_true]
  · intro hne err hkey
    simp only [SecretAssignHandler.ServeJSONRPC, hU, hne, if_false, hmap, hkey]
  · intro hne key err hkey haddr
    simp only [SecretAssignHandler.ServeJSONRPC, hU, hne, if_false, hmap, hkey, haddr]
  · intro hne key addr hkey haddr
    simp only [SecretAssignHandler.ServeJSONRPC, hU, hne, if_false, hmap, hkey, haddr]
  · intro h' hU' hmap' hR hP hT
    simp only [SecretAssignHandler.ServeJSONRPC, hU, hU', hmap, hmap', hR, hP, hT]

/-- Witness for C11 (amended): the identifier `alice`, assigned the index 3, with capacity
counters that would reject a new assignment: the index 3 is returned with the key
`(103, 203)` in hexadecimal and its address, and nothing is broadcast. -/
theorem SecretAssign_already_assigned_witness :
    (sampleAssignHandler 0 0 ⟨[], true⟩ "alice").ServeJSONRPC ""
      = ⟨some (.result ⟨3, "67", "cb", "0x67"⟩), []⟩ := by
  have hw := SecretAssign_already_assigned (sampleAssignHandler 0 0 ⟨[], true⟩ "alice") ""
    ⟨"alice"⟩ 3 rfl (by decide)
  have h1 := hw.1
  have h2 := hw.2.2.2.2.1 (by decide) ⟨103, 203⟩ "0x67" rfl
    (congrArg Except.ok (by decide : "0x" ++ bigIntText16 (103 : Int) = "0x67"))
  cases hr : (sampleAssignHandler 0 0 ⟨[], true⟩ "alice").ServeJSONRPC "" with
  | mk outcome broadcasts =>
    rw [hr] at h1 h2
    simp only at h1 h2
    rw [h1, h2]
    decide

/-- The capacity gate on a state in which `LastUnassignedIndex+20` does not wrap around: for a
non-empty identifier that is not in the assignment map, when
`LastCreatedIndex - LastUnassignedIndex < 20` the handler returns the overload error (code
32604) and calls `Broadcast` on nothing; when the difference is at least 20 the capacity check
does not reject: the assignment transaction is passed to `Broadcast` and the call does not
return the overload error. -/
theorem SecretAssign_capacity_gate (h : SecretAssignHandler) (params : String)
    (p : SecretAssignParams) (hU : h.Unmarshal params = .ok p) (hne : p.Email ≠ "")
    (hnew : h.state.EmailMapping p.Email = none)
    (hrange : h.state.LastUnassignedIndex + 20 < 2 ^ 64) :
    ((h.state.LastCreatedIndex : Int) - (h.state.LastUnassignedIndex : Int) < 20 →
      h.ServeJSONRPC params
        = ⟨some (.error ⟨32604,
            "System is under heavy load for assignments, please try again later", none⟩), []⟩)
    ∧ ((h.state.LastCreatedIndex : Int) - (h.state.LastUnassignedIndex : Int) ≥ 20 →
      (h.ServeJSONRPC params).broadcasts = [(p.Email, h.state.Epoch)]
      ∧ ∀ err, (h.ServeJSONRPC params).outcome = some (.error err) → err.Code ≠ 32604) := by
  have hmod : (h.state.LastUnassignedIndex + 20) % 2 ^ 64 = h.state.LastUnassignedIndex + 20 :=
    Nat.mod_eq_of_lt hrange
  constructor
  · intro hlt
    have hc : h.state.LastCreatedIndex < h.state.LastUnassignedIndex + 20 := by omega
    simp only [SecretAssignHandler.ServeJSONRPC, hU, hne, if_false, hnew, hmod, hc, if_true]
  · intro hge
    have hc : ¬ h.state.LastCreatedIndex < h.state.LastUnassignedIndex + 20 := by omega
    simp only [SecretAssignHandler.ServeJSONRPC, hU, hne, if_false, hnew, hmod, hc]
    constructor
    · split
      · rfl
      · split
        · rfl
        · rfl
        · split <;> rfl
    · intro err herr hcode
      have hresp : ∀ n, h.respond params n = .error err → False := by
        intro n hn
        unfold SecretAssignHandler.respond at hn
        rw [hU] at hn
        split at hn
        · cases hn; simp at hcode
        · cases hn
        · simp only at hn
          split at hn
          · cases hn; simp at hcode
          · split at hn
            · cases hn; simp at hcode
            · cases hn
      split at herr
      · simp only [Option.some.injEq, Outcome.error.injEq] at herr
        subst herr
        simp at hcode
      · split at herr
        · rename_i e hwait
          simp only [Option.some.injEq, Outcome.error.injEq] at herr
          subst herr
          have h3 := SecretAssignHandler.wait_failed_code h _ _ _ _ hwait
          omega
        · simp only [Option.some.injEq] at herr
          exact hresp _ herr
        · split at herr
          · simp only [Option.some.injEq] at herr
            exact hresp _ herr
          · cases herr

/-- An instance of the capacity gate: the identifier `carol` is not assigned; with 19 created
and 0 unassigned indices the request is bounced and nothing is broadcast. -/
theorem SecretAssign_capacity_gate_witness :
    (sampleAssignHandler 19 0 ⟨["tx.hash='ABCD'"], true⟩ "carol").ServeJSONRPC ""
      = ⟨some (.error ⟨32604,
          "System is under heavy load for assignments, please try again later", none⟩), []⟩ :=
  (SecretAssign_capacity_gate (sampleAssignHandler 19 0 ⟨["tx.hash='ABCD'"], true⟩ "carol") ""
    ⟨"carol"⟩ rfl (by decide) (by decide) (by decide)).1 (by decide)

/-- C17, the code at a failing input: the subscription channel delivers one event for another
query and is then closed. No re-query is made, and the handler returns a successful result with
the share index 0, the zero value of `assignedIndex`; had the matching event arrived, the
re-query would have answered `5` and the result would carry the index 5. -/
theorem SecretAssign_closed_channel :
    (sampleAssignHandler 100 0 ⟨["tx.hash='FFFF'"], true⟩ "carol").ServeJSONRPC ""
        = ⟨some (.result ⟨0, "64", "c8", "0x64"⟩), [("carol", 1)]⟩
    ∧ (sampleAssignHandler 100 0 ⟨["tx.hash='FFFF'", "tx.hash='ABCD'"], true⟩
          "carol").ServeJSONRPC ""
        = ⟨some (.result ⟨5, "69", "cd", "0x69"⟩), [("carol", 1)]⟩ := by
  decide

/-- The new-assignment path of `SecretAssign` when a matching event arrives: events for other
queries are skipped, a successful result carries the index (converted to `int`) that the
re-query returned, and an empty answer to the re-query gives an internal error. -/
theorem SecretAssign_new_assignment (h : SecretAssignHandler) (params : String)
    (p : SecretAssignParams) (hash : String) (hU : h.Unmarshal params = .ok p)
    (hne : p.Email ≠ "") (hnew : h.state.EmailMapping p.Email = none)
    (hcap : ¬ h.state.LastCreatedIndex < (h.state.LastUnassignedIndex + 20) % 2 ^ 64)
    (hB : h.Broadcast p.Email h.state.Epoch = .ok hash)
    (hm : ∃ e ∈ (h.RegisterQuery ("tx.hash='" ++ hash ++ "'") 1).events,
      h.eventQuery e = "tx.hash='" ++ hash ++ "'") :
    (∀ e es, h.eventQuery e ≠ "tx.hash='" ++ hash ++ "'" →
        h.wait p.Email ("tx.hash='" ++ hash ++ "'") (e :: es)
          = h.wait p.Email ("tx.hash='" ++ hash ++ "'") es)
    ∧ (∀ res, (h.ServeJSONRPC params).outcome = some (.result res) →
        ∃ value index, h.ABCIQuery "GetEmailIndex" p.Email = .ok value
          ∧ ParseUint value = some index ∧ res.ShareIndex = wrapInt64 index)
    ∧ (h.ABCIQuery "GetEmailIndex" p.Email = .ok "" →
        (h.ServeJSONRPC params).outcome
          = some (.error ⟨32603, "Internal error",
              some "Failed to find email after it has been assigned"⟩)) := by
  have hnd := SecretAssignHandler.wait_ne_drained h p.Email _ _ hm
  refine ⟨?_, ?_, ?_⟩
  · intro e es hq
    simp only [SecretAssignHandler.wait, ne_eq, hq, not_false_eq_true, if_true]
  · intro res hres
    simp only [SecretAssignHandler.ServeJSONRPC, hU, hne, if_false, hnew, hcap, hB] at hres
    split at hres
    · cases hres
    · rename_i index hw
      simp only [Option.some.injEq] at hres
      obtain ⟨_, value, hv, _, hp⟩ := SecretAssignHandler.wait_assigned h _ _ _ _ hw
      exact ⟨value, index, hv, hp, SecretAssignHandler.respond_result h params index res hres⟩
    · rename_i hw
      exact absurd hw hnd
  · intro hempty
    have hfail : ∀ events : List String,
        (∃ e ∈ events, h.eventQuery e = "tx.hash='" ++ hash ++ "'") →
        h.wait p.Email ("tx.hash='" ++ hash ++ "'") events
          = .failed ⟨32603, "Internal error",
              some "Failed to find email after it has been assigned"⟩ := by
      intro events
      induction events with
      | nil => intro hx; simp at hx
      | cons e es ih =>
        intro hx
        by_cases hq : h.eventQuery e = "tx.hash='" ++ hash ++ "'"
        · simp only [SecretAssignHandler.wait, hq, ne_eq, not_true_eq_false, if_false, hempty,
            if_true]
        · simp only [SecretAssignHandler.wait, ne_eq, hq, not_false_eq_true, if_true]
          apply ih
          obtain ⟨e', he', hq'⟩ := hx
          rcases List.mem_cons.1 he' with rfl | he'
          · exact absurd hq' hq
          · exact ⟨e', he', hq'⟩
    simp only [SecretAssignHandler.ServeJSONRPC, hU, hne, if_false, hnew, hcap, hB, hfail _ hm]

end dkgnode
